import Mathlib

/-! StockMaster backend: the inventory ledger routes of `server.js`.

A shallow embedding of the four ledger routes of `src/server.js`
(`POST /api/receipts/:id/validate`, `POST /api/deliveries/:id/validate`,
`POST /api/transfers`, `POST /api/adjustments`) over an explicit database
state, executed one request after another, of the chart data of
`GET /api/dashboard/stats`, and of the routes that create and delete receipts
and deliveries.

Modelling conventions:
* a MongoDB collection is a `List` in insertion order; `findOne` / `findById`
  return the first match;
* an `ObjectId` is a `Nat`; a `Date` is a `Nat` (milliseconds);
* a quantity is an integer-valued JavaScript `Number`, held in an `Int`
  (quantities with a fractional part are outside the model); the routes take
  as a parameter `num` the rounding of a computed sum or difference:
  `toNumber` rounds to the nearest double as the code does, `exactArith` does
  not round, and the definitions named without `With` are the routes in exact
  arithmetic, which agree with the code as long as no result rounds;
* an id sent to a route is a well-formed `ObjectId`, except the `toLocation`
  of a transfer body, which may be missing or malformed (`IdField`);
* a route returns the database after the request together with the response
  (HTTP status, and the `error` string of the body when there is one).
-/

namespace StockMaster

/-! ## Data model (`models/Stock.js`, `models/StockMove.js`, schemas of `server.js`) -/

/-- The `status` enum of `receiptSchema` and `deliverySchema`. -/
inductive Status where
  | Draft | Waiting | Ready | Done | Cancelled
  deriving DecidableEq, Repr

/-- The `type` enum of `stockMoveSchema`. -/
inductive MoveType where
  | Receipt | Delivery | Internal | Adjustment
  deriving DecidableEq, Repr

/-- A document of `models/Stock.js`. -/
structure Stock where
  product : Nat
  location : Nat
  quantity : Int
  deriving DecidableEq, Repr

/-- A document of `models/StockMove.js` (`user` is never written by the routes). -/
structure StockMove where
  product : Nat
  quantity : Int
  type : MoveType
  fromLocation : Option Nat
  toLocation : Option Nat
  reference : String
  date : Nat
  deriving DecidableEq, Repr

/-- A document of `locationSchema` (the fields the ledger routes read). -/
structure Location where
  _id : Nat
  warehouse : Nat
  deriving DecidableEq, Repr

/-- A document of `productSchema` (the fields the ledger routes read). -/
structure Product where
  _id : Nat
  name : String
  deriving DecidableEq, Repr

/-- An element of the `products` array of a receipt or delivery. -/
structure LineItem where
  product : Nat
  quantity : Int
  deriving DecidableEq, Repr

/-- A document of `receiptSchema` (the fields the ledger routes read); `to_` is
the schema field `to`. -/
structure Receipt where
  _id : Nat
  reference : String
  to_ : Nat
  contact : Option String
  scheduledDate : Option Nat
  status : Status
  products : List LineItem
  deriving DecidableEq, Repr

/-- A document of `deliverySchema`; `from_` is the schema field `from`. -/
structure Delivery where
  _id : Nat
  reference : String
  from_ : Nat
  contact : Option String
  scheduledDate : Option Nat
  status : Status
  products : List LineItem
  deriving DecidableEq, Repr

/-- A line item after `.populate("products.product")`: `product` is `none`
when the referenced product does not exist (mongoose populates `null`). -/
structure PopulatedItem where
  product : Option Product
  quantity : Int
  deriving DecidableEq, Repr

/-- The collections the ledger routes touch. -/
structure Db where
  locations : List Location
  products : List Product
  receipts : List Receipt
  deliveries : List Delivery
  stocks : List Stock
  moves : List StockMove
  deriving DecidableEq, Repr

/-- What a route sends: `res.status(status).json(body)`; `error` is the
`error` field of the body, `none` for a success body. -/
structure Response where
  status : Nat
  error : Option String
  deriving DecidableEq, Repr

/-! ## Collection primitives -/

/-- The query `Stock.findOne` on a product and a location: the first record
with that pair. -/
def Stock.findOne (stocks : List Stock) (product location : Nat) : Option Stock :=
  stocks.find? (fun s => decide (s.product = product ∧ s.location = location))

/-- The call `stock.save()`: a document obtained from `findOne` overwrites that stored
document, a document made by `new Stock(...)` (no stored document with its key)
is inserted at the end. -/
def Stock.save : List Stock → Stock → List Stock
  | [], s => [s]
  | t :: ts, s =>
    if t.product = s.product ∧ t.location = s.location then s :: ts
    else t :: Stock.save ts s

/-- The call `StockMove.create(move)`: the move is appended to the log. -/
def StockMove.create (moves : List StockMove) (m : StockMove) : List StockMove :=
  moves ++ [m]

/-- The query `Location.findOne` on a warehouse: the first location of it. -/
def Location.findOne (locations : List Location) (warehouse : Nat) : Option Location :=
  locations.find? (fun l => decide (l.warehouse = warehouse))

/-- The query `Receipt.findById(id)`. -/
def Receipt.findById (receipts : List Receipt) (id : Nat) : Option Receipt :=
  receipts.find? (fun r => decide (r._id = id))

/-- The query `Delivery.findById(id)`. -/
def Delivery.findById (deliveries : List Delivery) (id : Nat) : Option Delivery :=
  deliveries.find? (fun d => decide (d._id = id))

/-- The call `receipt.save()` of a document obtained from `findById`. -/
def Receipt.save : List Receipt → Receipt → List Receipt
  | [], _ => []
  | t :: ts, r => if t._id = r._id then r :: ts else t :: Receipt.save ts r

/-- The call `delivery.save()` of a document obtained from `findById`. -/
def Delivery.save : List Delivery → Delivery → List Delivery
  | [], _ => []
  | t :: ts, d => if t._id = d._id then d :: ts else t :: Delivery.save ts d

/-- The call `.populate("products.product")` on the line items: each product
reference is replaced by the product with that id, or by `null` (`none`). -/
def populate (products : List Product) (items : List LineItem) : List PopulatedItem :=
  items.map (fun it =>
    { product := products.find? (fun p => decide (p._id = it.product)),
      quantity := it.quantity })

/-- The message of the `TypeError` thrown by reading a property of `null`,
which the `catch` block of every route turns into a 500 response. -/
def nullError : String := "Cannot read properties of null"

/-- The leading part of the message of the `ValidationError` thrown by
`receipt.save()`. -/
def receiptValidationError : String := "Receipt validation failed"

/-- The leading part of the message of the `ValidationError` thrown by
`delivery.save()`. -/
def deliveryValidationError : String := "Delivery validation failed"

/-- The leading part of the message of the `ValidationError` thrown by
`stock.save()` on a document without `location`. -/
def stockValidationError : String := "Stock validation failed"

/-- The leading part of the message of the `CastError` thrown by a query on a
value that is no ObjectId. -/
def castError : String := "Cast to ObjectId failed"

/-- A required string path holds a value and the value is not empty (the
`required` validator of mongoose on a String path). -/
def requiredString : Option String → Bool
  | some c => decide (c ≠ "")
  | none => false

/-- The schema validation run by `receipt.save()`: the required paths
`reference`, `contact` and `scheduledDate`. -/
def Receipt.validate (r : Receipt) : Bool :=
  requiredString (some r.reference) && requiredString r.contact && r.scheduledDate.isSome

/-- The schema validation run by `delivery.save()`: the required paths
`reference`, `contact` and `scheduledDate`. -/
def Delivery.validate (d : Delivery) : Bool :=
  requiredString (some d.reference) && requiredString d.contact && d.scheduledDate.isSome

/-! ## Number arithmetic

The quantities are JavaScript Numbers. The routes are embedded over a function
`num` that takes the exact result of an addition or subtraction to the Number
the code computes. `exactArith` is arithmetic without rounding; `toNumber` is
the rounding of an integer to the nearest double. -/

/-- Arithmetic without rounding. -/
def exactArith : Int → Int := fun n => n

/-- The number of low bits a natural number loses in the 53-bit significand of
a double: the halvings that bring it below `2 ^ 53` (`fuel` bounds them). -/
def excessBits : Nat → Nat → Nat
  | 0, _ => 0
  | fuel + 1, a => if a < 2 ^ 53 then 0 else excessBits fuel (a / 2) + 1

/-- The nearest double of a natural number below `2 ^ 1024`, ties to the even
significand. -/
def roundNat (a : Nat) : Nat :=
  let unit := 2 ^ excessBits 1024 a
  let q := a / unit
  let r := a % unit
  if 2 * r < unit then q * unit
  else if unit < 2 * r then (q + 1) * unit
  else if q % 2 = 0 then q * unit
  else (q + 1) * unit

/-- The nearest double of an integer of magnitude below `2 ^ 1024`: the Number
that an exact integer result becomes. -/
def toNumber (n : Int) : Int :=
  if n < 0 then -((roundNat n.natAbs : Nat) : Int) else ((roundNat n.natAbs : Nat) : Int)

/-! ## `POST /api/receipts/:id/validate` (server.js 383-416) -/

/-- The move logged for one receipt line (`StockMove.create` of the loop body);
`scheduledDate || new Date()` takes the clock when the date is missing. -/
def receiptMove (location : Location) (receipt : Receipt) (now : Nat) (prod : Product)
    (quantity : Int) : StockMove :=
  { product := prod._id, quantity := quantity, type := MoveType.Receipt,
    fromLocation := none, toLocation := some location._id,
    reference := receipt.reference,
    date := receipt.scheduledDate.getD now }

/-- The `for (const item of receipt.products)` loop of receipt validation.
Returns the database reached and, when the loop was left by an exception,
the response of the `catch` block. -/
def receiptLoopWith (num : Int → Int) (location : Location) (receipt : Receipt) (now : Nat) :
    List PopulatedItem → Db → Db × Option Response
  | [], db => (db, none)
  | item :: rest, db =>
    match item.product with
    | none => (db, some { status := 500, error := some nullError })
    | some prod =>
      let stock := (Stock.findOne db.stocks prod._id location._id).getD
        { product := prod._id, location := location._id, quantity := 0 }
      let stock := { stock with quantity := num (stock.quantity + item.quantity) }
      let db := { db with stocks := Stock.save db.stocks stock }
      let move := receiptMove location receipt now prod item.quantity
      let db := { db with moves := StockMove.create db.moves move }
      receiptLoopWith num location receipt now rest db

/-- The route `POST /api/receipts/:id/validate`; `now` is the clock. The final
`receipt.save()` runs the schema validation: when it throws, the `catch` block
answers 500 and what the loop wrote stays. -/
def validateReceiptWith (num : Int → Int) (db : Db) (id now : Nat) : Db × Response :=
  match Receipt.findById db.receipts id with
  | none => (db, { status := 500, error := some nullError })
  | some receipt =>
    if receipt.status = Status.Done then
      (db, { status := 400, error := some "Already validated" })
    else
      match Location.findOne db.locations receipt.to_ with
      | none => (db, { status := 400, error := some "No location found for warehouse" })
      | some location =>
        match receiptLoopWith num location receipt now
            (populate db.products receipt.products) db with
        | (db1, some err) => (db1, err)
        | (db1, none) =>
          if Receipt.validate receipt = true then
            ({ db1 with
                receipts := Receipt.save db1.receipts { receipt with status := Status.Done } },
             { status := 200, error := none })
          else (db1, { status := 500, error := some receiptValidationError })

/-- The receipt loop in exact arithmetic. -/
def receiptLoop (location : Location) (receipt : Receipt) (now : Nat)
    (items : List PopulatedItem) (db : Db) : Db × Option Response :=
  receiptLoopWith exactArith location receipt now items db

/-- The route `POST /api/receipts/:id/validate` in exact arithmetic. -/
def validateReceipt (db : Db) (id now : Nat) : Db × Response :=
  validateReceiptWith exactArith db id now

/-! ## `POST /api/deliveries/:id/validate` (server.js 419-452) -/

/-- The move logged for one delivery line (`StockMove.create` of the loop
body): the quantity is negated. -/
def deliveryMove (location : Location) (delivery : Delivery) (now : Nat) (prod : Product)
    (quantity : Int) : StockMove :=
  { product := prod._id, quantity := -quantity, type := MoveType.Delivery,
    fromLocation := some location._id, toLocation := none,
    reference := delivery.reference,
    date := delivery.scheduledDate.getD now }

/-- The `for (const item of delivery.products)` loop of delivery validation.
Returns the database reached and, when the loop was left early (the
insufficient-stock `return`, or an exception), the response sent. -/
def deliveryLoopWith (num : Int → Int) (location : Location) (delivery : Delivery)
    (now : Nat) : List PopulatedItem → Db → Db × Option Response
  | [], db => (db, none)
  | item :: rest, db =>
    match item.product with
    | none => (db, some { status := 500, error := some nullError })
    | some prod =>
      match Stock.findOne db.stocks prod._id location._id with
      | none => (db, some { status := 400, error := some ("Insufficient stock for " ++ prod.name) })
      | some stock =>
        if stock.quantity < item.quantity then
          (db, some { status := 400, error := some ("Insufficient stock for " ++ prod.name) })
        else
          let stock := { stock with quantity := num (stock.quantity - item.quantity) }
          let db := { db with stocks := Stock.save db.stocks stock }
          let move := deliveryMove location delivery now prod item.quantity
          let db := { db with moves := StockMove.create db.moves move }
          deliveryLoopWith num location delivery now rest db

/-- The route `POST /api/deliveries/:id/validate`; `now` is the clock. The
final `delivery.save()` runs the schema validation: when it throws, the
`catch` block answers 500 and what the loop wrote stays. -/
def validateDeliveryWith (num : Int → Int) (db : Db) (id now : Nat) : Db × Response :=
  match Delivery.findById db.deliveries id with
  | none => (db, { status := 500, error := some nullError })
  | some delivery =>
    if delivery.status = Status.Done then
      (db, { status := 400, error := some "Already validated" })
    else
      match Location.findOne db.locations delivery.from_ with
      | none => (db, { status := 400, error := some "No location found for warehouse" })
      | some location =>
        match deliveryLoopWith num location delivery now
            (populate db.products delivery.products) db with
        | (db1, some err) => (db1, err)
        | (db1, none) =>
          if Delivery.validate delivery = true then
            ({ db1 with deliveries :=
                Delivery.save db1.deliveries { delivery with status := Status.Done } },
             { status := 200, error := none })
          else (db1, { status := 500, error := some deliveryValidationError })

/-- The delivery loop in exact arithmetic. -/
def deliveryLoop (location : Location) (delivery : Delivery) (now : Nat)
    (items : List PopulatedItem) (db : Db) : Db × Option Response :=
  deliveryLoopWith exactArith location delivery now items db

/-- The route `POST /api/deliveries/:id/validate` in exact arithmetic. -/
def validateDelivery (db : Db) (id now : Nat) : Db × Response :=
  validateDeliveryWith exactArith db id now

/-! ## `POST /api/transfers` (server.js 455-491) -/

/-- The field `toLocation` of a transfer body as the route receives it: a
well-formed ObjectId, nothing, or a value that does not cast to an ObjectId. -/
inductive IdField where
  | id (value : Nat)
  | missing
  | malformed
  deriving DecidableEq, Repr

/-- The route `POST /api/transfers` on the body
`{ product, fromLocation, toLocation, quantity }` with a well-formed `product`
and `fromLocation`; `now` is the clock. The source is saved before the
destination is looked up: a malformed `toLocation` makes that query throw, a
missing one makes `destStock.save()` throw (`location` is required); the
`catch` block answers 500 and the saved source stays. -/
def transferWith (num : Int → Int) (db : Db) (product fromLocation : Nat)
    (toLocation : IdField) (quantity : Int) (now : Nat) : Db × Response :=
  match Stock.findOne db.stocks product fromLocation with
  | none => (db, { status := 400, error := some "Insufficient stock at source location" })
  | some sourceStock =>
    if sourceStock.quantity < quantity then
      (db, { status := 400, error := some "Insufficient stock at source location" })
    else
      let sourceStock := { sourceStock with quantity := num (sourceStock.quantity - quantity) }
      let db := { db with stocks := Stock.save db.stocks sourceStock }
      match toLocation with
      | IdField.malformed => (db, { status := 500, error := some castError })
      | IdField.missing => (db, { status := 500, error := some stockValidationError })
      | IdField.id toLocation =>
        let destStock := (Stock.findOne db.stocks product toLocation).getD
          { product := product, location := toLocation, quantity := 0 }
        let destStock := { destStock with quantity := num (destStock.quantity + quantity) }
        let db := { db with stocks := Stock.save db.stocks destStock }
        let move : StockMove :=
          { product := product, quantity := quantity, type := MoveType.Internal,
            fromLocation := some fromLocation, toLocation := some toLocation,
            reference := "INT/" ++ toString now, date := now }
        let db := { db with moves := StockMove.create db.moves move }
        (db, { status := 200, error := none })

/-- The route `POST /api/transfers` on a body with a well-formed `toLocation`,
in exact arithmetic. -/
def transfer (db : Db) (product fromLocation toLocation : Nat) (quantity : Int) (now : Nat) :
    Db × Response :=
  transferWith exactArith db product fromLocation (IdField.id toLocation) quantity now

/-! ## `POST /api/adjustments` (server.js 494-525) -/

/-- The route `POST /api/adjustments` on the body
`{ product, location, quantity, type }`; `now` is the clock. -/
def adjustmentWith (num : Int → Int) (db : Db) (product location : Nat) (quantity : Int)
    (type : String) (now : Nat) : Db × Response :=
  let stock := (Stock.findOne db.stocks product location).getD
    { product := product, location := location, quantity := 0 }
  let oldQty := stock.quantity
  let stock := if type = "Set" then { stock with quantity := quantity }
    else { stock with quantity := num (stock.quantity + quantity) }
  let db := { db with stocks := Stock.save db.stocks stock }
  let diff := num (stock.quantity - oldQty)
  let move : StockMove :=
    { product := product, quantity := diff, type := MoveType.Adjustment,
      fromLocation := none, toLocation := some location,
      reference := "ADJ/" ++ toString now, date := now }
  let db := { db with moves := StockMove.create db.moves move }
  (db, { status := 200, error := none })

/-- The route `POST /api/adjustments` in exact arithmetic. -/
def adjustment (db : Db) (product location : Nat) (quantity : Int) (type : String) (now : Nat) :
    Db × Response :=
  adjustmentWith exactArith db product location quantity type now

/-! ## Request sequences -/

/-- One request. `catalog` stands for any run of the CRUD routes on
warehouses, locations, products, receipts and deliveries (server.js 45-148,
221-378): they rewrite those collections and never write `Stock` or
`StockMove`. -/
inductive Op where
  | validateReceipt (id now : Nat)
  | validateDelivery (id now : Nat)
  | transfer (product fromLocation : Nat) (toLocation : IdField) (quantity : Int) (now : Nat)
  | adjustment (product location : Nat) (quantity : Int) (type : String) (now : Nat)
  | catalog (locations : List Location) (products : List Product)
      (receipts : List Receipt) (deliveries : List Delivery)

/-- The database after one request. -/
def stepWith (num : Int → Int) (db : Db) : Op → Db
  | Op.validateReceipt id now => (validateReceiptWith num db id now).1
  | Op.validateDelivery id now => (validateDeliveryWith num db id now).1
  | Op.transfer p a b q now => (transferWith num db p a b q now).1
  | Op.adjustment p l q t now => (adjustmentWith num db p l q t now).1
  | Op.catalog ls ps rs ds =>
    { db with locations := ls, products := ps, receipts := rs, deliveries := ds }

/-- The database after a sequence of requests executed one after another. -/
def runWith (num : Int → Int) (db : Db) (ops : List Op) : Db :=
  ops.foldl (stepWith num) db

/-- The database after one request, in exact arithmetic. -/
def step (db : Db) (op : Op) : Db :=
  stepWith exactArith db op

/-- The database after a sequence of requests, in exact arithmetic. -/
def run (db : Db) (ops : List Op) : Db :=
  runWith exactArith db ops

/-- The field `toLocation` of every transfer request is a well-formed
ObjectId. -/
def Op.wellFormed : Op → Bool
  | Op.transfer _ _ (IdField.id _) _ _ => true
  | Op.transfer _ _ _ _ _ => false
  | _ => true

/-- A database with the given documents and catalog, no stock and no moves. -/
def emptyLedger (locations : List Location) (products : List Product)
    (receipts : List Receipt) (deliveries : List Delivery) : Db :=
  { locations := locations, products := products, receipts := receipts,
    deliveries := deliveries, stocks := [], moves := [] }

/-- The on-hand quantity of a (product, location) pair: the quantity of its
Stock record, 0 when no record exists. -/
def quantityOf (stocks : List Stock) (product location : Nat) : Int :=
  match Stock.findOne stocks product location with
  | some s => s.quantity
  | none => 0

/-! ## The ledger fold of the specification -/

/-- The signed contribution of one move to the quantity at `location`:
a Receipt or Adjustment move adds its quantity to `toLocation`, a Delivery
move adds its (negative) quantity to `fromLocation`, an Internal move
subtracts its quantity from `fromLocation` and adds it to `toLocation`. -/
def contribution (m : StockMove) (location : Nat) : Int :=
  match m.type with
  | MoveType.Receipt => if m.toLocation = some location then m.quantity else 0
  | MoveType.Adjustment => if m.toLocation = some location then m.quantity else 0
  | MoveType.Delivery => if m.fromLocation = some location then m.quantity else 0
  | MoveType.Internal =>
    (if m.fromLocation = some location then -m.quantity else 0)
      + (if m.toLocation = some location then m.quantity else 0)

/-- The fold of the StockMove log for `product` at `location`. -/
def ledgerFold (moves : List StockMove) (product location : Nat) : Int :=
  moves.foldl
    (fun acc m => if m.product = product then acc + contribution m location else acc) 0

/-- The Stock collection is the projection of the StockMove log. -/
def Projected (db : Db) : Prop :=
  ∀ p l, quantityOf db.stocks p l = ledgerFold db.moves p l

/-! ## Requests with non-negative quantities -/

/-- Every line item of every receipt has a quantity of at least 0. -/
def receiptLinesNonneg (receipts : List Receipt) : Bool :=
  receipts.all (fun r => r.products.all (fun it => decide (0 ≤ it.quantity)))

/-- The quantity a request adds to the ledger is at least 0: the `quantity`
of a transfer or adjustment body, the receipt line quantities written by a
CRUD request. Delivery line quantities are not constrained. -/
def Op.nonneg : Op → Bool
  | Op.validateReceipt _ _ => true
  | Op.validateDelivery _ _ => true
  | Op.transfer _ _ _ q _ => decide (0 ≤ q)
  | Op.adjustment _ _ q _ _ => decide (0 ≤ q)
  | Op.catalog _ _ rs _ => receiptLinesNonneg rs

/-- Every Stock record has a quantity of at least 0. -/
def StocksNonneg (db : Db) : Prop :=
  ∀ s ∈ db.stocks, 0 ≤ s.quantity

instance (db : Db) : Decidable (StocksNonneg db) := by
  unfold StocksNonneg; infer_instance

/-! ## Sample data -/

/-- One location (id 10) of warehouse 1, one location (id 20) of warehouse 2. -/
def sampleLocations : List Location :=
  [{ _id := 10, warehouse := 1 }, { _id := 20, warehouse := 2 }]

/-- Two products. -/
def sampleProducts : List Product :=
  [{ _id := 100, name := "Bolt" }, { _id := 101, name := "Nut" }]

/-- A draft receipt of 50 bolts and 7 nuts into warehouse 1. -/
def sampleReceipt : Receipt :=
  { _id := 1, reference := "WH/IN/00001", to_ := 1, contact := some "Vendor",
    scheduledDate := some 1000,
    status := Status.Draft,
    products := [{ product := 100, quantity := 50 }, { product := 101, quantity := 7 }] }

/-- A draft delivery of 20 bolts and 9 nuts out of warehouse 1. -/
def sampleDelivery : Delivery :=
  { _id := 2, reference := "WH/OUT/00001", from_ := 1, contact := some "Customer",
    scheduledDate := some 2000,
    status := Status.Draft,
    products := [{ product := 100, quantity := 20 }, { product := 101, quantity := 9 }] }

/-- The sample catalog and documents with no stock and no moves. -/
def sampleDb : Db :=
  emptyLedger sampleLocations sampleProducts [sampleReceipt] [sampleDelivery]

/-- A request sequence: the sample receipt is validated, 10 bolts are moved
to location 20, the bolts at location 20 are set to 5, the sample delivery is
validated. -/
def sampleOps : List Op :=
  [Op.validateReceipt 1 0, Op.transfer 100 10 (IdField.id 20) 10 0,
   Op.adjustment 100 20 5 "Set" 0,
   Op.validateDelivery 2 0]

/-- The sample database after the sample receipt was validated: 50 bolts and
7 nuts at location 10. -/
def sampleStocked : Db :=
  (validateReceipt sampleDb 1 0).1

/-- The sample catalog with the sample receipt and delivery both Cancelled. -/
def sampleCancelled : Db :=
  emptyLedger sampleLocations sampleProducts
    [{ sampleReceipt with status := Status.Cancelled }]
    [{ sampleDelivery with status := Status.Cancelled }]

/-- The sample catalog with the sample receipt and delivery both Done, 50
bolts in stock. -/
def sampleDone : Db :=
  { sampleDb with
    receipts := [{ sampleReceipt with status := Status.Done }],
    deliveries := [{ sampleDelivery with status := Status.Done }],
    stocks := [{ product := 100, location := 10, quantity := 50 }] }

/-- A ready delivery of 20 bolts out of warehouse 1. -/
def sampleSingleDelivery : Delivery :=
  { _id := 3, reference := "WH/OUT/00002", from_ := 1, contact := some "Customer",
    scheduledDate := some 3000,
    status := Status.Ready, products := [{ product := 100, quantity := 20 }] }

/-- The stocked sample database holding the single-line delivery. -/
def sampleSingle : Db :=
  { sampleStocked with deliveries := [sampleSingleDelivery] }

/-- The sample receipt is validated, then 10 bolts are transferred from
location 10 by a request whose `toLocation` is no ObjectId. -/
def sampleHalfTransfer : List Op :=
  [Op.validateReceipt 1 0, Op.transfer 100 10 IdField.malformed 10 0]

/-- The quantity of `product` left of `current` after the lines were delivered
one after another: each line of the product subtracts its quantity. -/
def afterLines (lines : List LineItem) (product : Nat) (current : Int) : Int :=
  lines.foldl (fun acc line => if line.product = product then acc - line.quantity else acc)
    current

/-- A database whose only Stock record holds `2 ^ 53` units of product 1 at
location 1. -/
def sampleLarge : Db :=
  { emptyLedger [] [] [] [] with
    stocks := [{ product := 1, location := 1, quantity := 9007199254740992 }] }

/-! ## `GET /api/dashboard/stats`: the chart data (server.js 591-642) -/

/-- The constant `year2025Start`, `new Date('2025-01-01')`, in milliseconds. -/
def year2025Start : Nat := 1735689600000

/-- The constant `year2025End`, `new Date('2025-12-31T23:59:59.999Z')`, in
milliseconds. -/
def year2025End : Nat := 1767225599999

/-- One output document of the `$group` stage: `_id.month`, `inbound`,
`outbound`. -/
structure MonthlyData where
  month : Nat
  inbound : Int
  outbound : Int
  deriving DecidableEq, Repr

/-- One element of `chartData`; `in_` is the field `in`. -/
structure ChartEntry where
  name : String
  in_ : Int
  out : Int
  deriving DecidableEq, Repr

/-- The array `monthNames`. -/
def monthNames : List String :=
  ["Jan", "Feb", "Mar", "Apr", "May", "Jun", "Jul", "Aug", "Sep", "Oct", "Nov", "Dec"]

/-- The `$match` stage: the moves dated from `year2025Start` to `year2025End`. -/
def matchStage (moves : List StockMove) : List StockMove :=
  moves.filter (fun m => decide (year2025Start ≤ m.date ∧ m.date ≤ year2025End))

/-- The `$sum` accumulators of the `$group` stage take one more document of
group `key`: its group gets the two addends, or a new group starts with them. -/
def addToGroup : List MonthlyData → Nat → Int → Int → List MonthlyData
  | [], key, i, o => [{ month := key, inbound := i, outbound := o }]
  | g :: gs, key, i, o =>
    if g.month = key then
      { g with inbound := g.inbound + i, outbound := g.outbound + o } :: gs
    else g :: addToGroup gs key i o

/-- The addend of `inbound`: `$cond: [quantity > 0, quantity, 0]`. -/
def inboundOf (m : StockMove) : Int :=
  if 0 < m.quantity then m.quantity else 0

/-- The addend of `outbound`: `$cond: [quantity < 0, $abs quantity, 0]`. -/
def outboundOf (m : StockMove) : Int :=
  if m.quantity < 0 then (m.quantity.natAbs : Int) else 0

/-- The `$group` stage, keyed by `$month` of the date. The operator `$month`
of MongoDB is the parameter `month`. -/
def groupStage (month : Nat → Nat) (docs : List StockMove) : List MonthlyData :=
  docs.foldl (fun acc m => addToGroup acc (month m.date) (inboundOf m) (outboundOf m)) []

/-- The `$sort` stage, ascending `_id.month`. -/
def sortStage (groups : List MonthlyData) : List MonthlyData :=
  groups.insertionSort (fun a b => a.month ≤ b.month)

/-- The aggregation `monthlyData`: `$match`, `$group`, `$sort`. -/
def monthlyData (month : Nat → Nat) (moves : List StockMove) : List MonthlyData :=
  sortStage (groupStage month (matchStage moves))

/-- The object `monthDataMap` filled by `monthlyData.forEach`: a later item
overwrites an earlier one under the same key. -/
def monthDataMap (items : List MonthlyData) : Nat → Option (Int × Int) :=
  items.foldl
    (fun map item => fun k => if k = item.month then some (item.inbound, item.outbound) else map k)
    (fun _ => none)

/-- The array `chartData`: for each month name, the data of its month number
(`index + 1`), or zeros when the map has none. -/
def chartData (month : Nat → Nat) (moves : List StockMove) : List ChartEntry :=
  monthNames.enum.map (fun x =>
    let monthNum := x.1 + 1
    let data := (monthDataMap (monthlyData month moves) monthNum).getD (0, 0)
    { name := x.2, in_ := data.1, out := data.2 })

/-! ## The monthly sums of the specification -/

/-- A move is dated within the reporting year 2025. -/
def inReportingYear (m : StockMove) : Bool :=
  decide (year2025Start ≤ m.date ∧ m.date ≤ year2025End)

/-- The sum of the quantities of all moves dated in month `k` of the reporting
year whose quantity is positive. -/
def monthInbound (month : Nat → Nat) (moves : List StockMove) (k : Nat) : Int :=
  ((moves.filter (fun m =>
    inReportingYear m && decide (month m.date = k) && decide (0 < m.quantity))).map
    (fun m => m.quantity)).sum

/-- The sum of the absolute values of the quantities of all moves dated in
month `k` of the reporting year whose quantity is negative. -/
def monthOutbound (month : Nat → Nat) (moves : List StockMove) (k : Nat) : Int :=
  ((moves.filter (fun m =>
    inReportingYear m && decide (month m.date = k) && decide (m.quantity < 0))).map
    (fun m => (m.quantity.natAbs : Int))).sum

/-- The operator `$month` (UTC) on a date of the year 2025: the day of the
year against the month ends of a common year. -/
def month2025 (date : Nat) : Nat :=
  let day := (date - year2025Start) / 86400000
  if day < 31 then 1 else if day < 59 then 2 else if day < 90 then 3
  else if day < 120 then 4 else if day < 151 then 5 else if day < 181 then 6
  else if day < 212 then 7 else if day < 243 then 8 else if day < 273 then 9
  else if day < 304 then 10 else if day < 334 then 11 else 12

/-- A log of four moves: a receipt of 50 on 15 January 2025, a delivery of 20
on 31 January 2025, an adjustment of -3 on 1 March 2025, and a receipt of 7 on
31 December 2024. -/
def sampleMoves : List StockMove :=
  [{ product := 100, quantity := 50, type := MoveType.Receipt, fromLocation := none,
     toLocation := some 10, reference := "WH/IN/00001", date := 1736899200000 },
   { product := 100, quantity := -20, type := MoveType.Delivery, fromLocation := some 10,
     toLocation := none, reference := "WH/OUT/00001", date := 1738364400000 },
   { product := 100, quantity := -3, type := MoveType.Adjustment, fromLocation := none,
     toLocation := some 10, reference := "ADJ/1740787200000", date := 1740787200000 },
   { product := 101, quantity := 7, type := MoveType.Receipt, fromLocation := none,
     toLocation := some 10, reference := "WH/IN/00000", date := 1735603200000 }]

/-! ## Auxiliary readings of the aggregation -/

/-- The `inbound` and `outbound` of the group of month `k`, when there is one. -/
def groupVal (gs : List MonthlyData) (k : Nat) : Option (Int × Int) :=
  (gs.find? (fun g => decide (g.month = k))).map (fun g => (g.inbound, g.outbound))

/-- The sum of the `inbound` addends of the documents of month `k`. -/
def inboundSum (month : Nat → Nat) (docs : List StockMove) (k : Nat) : Int :=
  ((docs.filter (fun m => decide (month m.date = k))).map inboundOf).sum

/-- The sum of the `outbound` addends of the documents of month `k`. -/
def outboundSum (month : Nat → Nat) (docs : List StockMove) (k : Nat) : Int :=
  ((docs.filter (fun m => decide (month m.date = k))).map outboundOf).sum

/-! ## Creating and deleting documents (server.js 290-302, 315-322, 347-358, 371-378) -/

/-- The method `padStart` of a JavaScript string with a one-character pad
string: pad characters in front up to the target length. -/
def padStart (s : String) (targetLength : Nat) (padString : Char) : String :=
  String.mk (List.replicate (targetLength - s.length) padString) ++ s

/-- The reference generated by `POST /api/receipts` when `countDocuments()`
returned `count`. -/
def receiptReference (count : Nat) : String :=
  "WH/IN/" ++ padStart (toString (count + 1)) 5 '0'

/-- The reference generated by `POST /api/deliveries` when `countDocuments()`
returned `count`. -/
def deliveryReference (count : Nat) : String :=
  "WH/OUT/" ++ padStart (toString (count + 1)) 5 '0'

/-- The body of `POST /api/receipts`: the schema fields a client sends; the
required `contact` and `scheduledDate` may be missing. -/
structure ReceiptBody where
  to_ : Nat
  contact : Option String
  scheduledDate : Option Nat
  status : Option Status
  products : List LineItem
  deriving DecidableEq, Repr

/-- The body of `POST /api/deliveries`. -/
structure DeliveryBody where
  from_ : Nat
  contact : Option String
  scheduledDate : Option Nat
  status : Option Status
  products : List LineItem
  deriving DecidableEq, Repr

/-- The route `POST /api/receipts`; `newId` is the `_id` of the new document.
`receipt.save()` throws, and the route answers 400, when the schema validation
fails (a required field is missing or empty) or when the unique index on
`reference` finds the reference stored; the duplicate-key message is its
leading part. -/
def createReceipt (db : Db) (newId : Nat) (body : ReceiptBody) : Db × Response :=
  let count := db.receipts.length
  let reference := receiptReference count
  let receipt : Receipt :=
    { _id := newId, reference := reference, to_ := body.to_, contact := body.contact,
      scheduledDate := body.scheduledDate, status := body.status.getD Status.Draft,
      products := body.products }
  if Receipt.validate receipt = false then
    (db, { status := 400, error := some receiptValidationError })
  else if db.receipts.any (fun r => decide (r.reference = reference)) then
    (db, { status := 400, error := some "E11000 duplicate key error" })
  else
    ({ db with receipts := db.receipts ++ [receipt] }, { status := 201, error := none })

/-- The route `DELETE /api/receipts/:id`. -/
def deleteReceipt (db : Db) (id : Nat) : Db × Response :=
  ({ db with receipts := db.receipts.eraseP (fun r => decide (r._id = id)) },
   { status := 200, error := none })

/-- The route `POST /api/deliveries`; `newId` is the `_id` of the new document. -/
def createDelivery (db : Db) (newId : Nat) (body : DeliveryBody) : Db × Response :=
  let count := db.deliveries.length
  let reference := deliveryReference count
  let delivery : Delivery :=
    { _id := newId, reference := reference, from_ := body.from_, contact := body.contact,
      scheduledDate := body.scheduledDate, status := body.status.getD Status.Draft,
      products := body.products }
  if Delivery.validate delivery = false then
    (db, { status := 400, error := some deliveryValidationError })
  else if db.deliveries.any (fun d => decide (d.reference = reference)) then
    (db, { status := 400, error := some "E11000 duplicate key error" })
  else
    ({ db with deliveries := db.deliveries ++ [delivery] }, { status := 201, error := none })

/-- The route `DELETE /api/deliveries/:id`. -/
def deleteDelivery (db : Db) (id : Nat) : Db × Response :=
  ({ db with deliveries := db.deliveries.eraseP (fun d => decide (d._id = id)) },
   { status := 200, error := none })

/-- A valid receipt body. -/
def sampleReceiptBody : ReceiptBody :=
  { to_ := 1, contact := some "Vendor", scheduledDate := some 1000, status := none,
    products := [{ product := 100, quantity := 50 }] }

/-- A valid delivery body. -/
def sampleDeliveryBody : DeliveryBody :=
  { from_ := 1, contact := some "Customer", scheduledDate := some 2000, status := none,
    products := [{ product := 100, quantity := 20 }] }

/-- The database after two receipts (ids 1, 2) and two deliveries (ids 3, 4)
were created on an empty database and the first of each was deleted. -/
def sampleAfterDelete : Db :=
  (deleteDelivery
    (createDelivery
      (createDelivery
        (deleteReceipt
          (createReceipt
            (createReceipt (emptyLedger [] [] [] []) 1 sampleReceiptBody).1
            2 sampleReceiptBody).1
          1).1
        3 sampleDeliveryBody).1
      4 sampleDeliveryBody).1
    3).1

/-! ## Theorems -/

/-! ### The routes in exact arithmetic, unfolded -/

theorem receiptLoop_nil (location : Location) (receipt : Receipt) (now : Nat) (db : Db) :
    receiptLoop location receipt now [] db = (db, none) := rfl

theorem receiptLoop_cons (location : Location) (receipt : Receipt) (now : Nat)
    (item : PopulatedItem) (rest : List PopulatedItem) (db : Db) :
    receiptLoop location receipt now (item :: rest) db =
      match item.product with
      | none => (db, some { status := 500, error := some nullError })
      | some prod =>
        let stock := (Stock.findOne db.stocks prod._id location._id).getD
          { product := prod._id, location := location._id, quantity := 0 }
        let stock := { stock with quantity := stock.quantity + item.quantity }
        let db := { db with stocks := Stock.save db.stocks stock }
        let move := receiptMove location receipt now prod item.quantity
        let db := { db with moves := StockMove.create db.moves move }
        receiptLoop location receipt now rest db := rfl

theorem deliveryLoop_nil (location : Location) (delivery : Delivery) (now : Nat) (db : Db) :
    deliveryLoop location delivery now [] db = (db, none) := rfl

theorem deliveryLoop_cons (location : Location) (delivery : Delivery) (now : Nat)
    (item : PopulatedItem) (rest : List PopulatedItem) (db : Db) :
    deliveryLoop location delivery now (item :: rest) db =
      match item.product with
      | none => (db, some { status := 500, error := some nullError })
      | some prod =>
        match Stock.findOne db.stocks prod._id location._id with
        | none =>
          (db, some { status := 400, error := some ("Insufficient stock for " ++ prod.name) })
        | some stock =>
          if stock.quantity < item.quantity then
            (db, some { status := 400, error := some ("Insufficient stock for " ++ prod.name) })
          else
            let stock := { stock with quantity := stock.quantity - item.quantity }
            let db := { db with stocks := Stock.save db.stocks stock }
            let move := deliveryMove location delivery now prod item.quantity
            let db := { db with moves := StockMove.create db.moves move }
            deliveryLoop location delivery now rest db := rfl

theorem validateReceipt_def (db : Db) (id now : Nat) :
    validateReceipt db id now =
      match Receipt.findById db.receipts id with
      | none => (db, { status := 500, error := some nullError })
      | some receipt =>
        if receipt.status = Status.Done then
          (db, { status := 400, error := some "Already validated" })
        else
          match Location.findOne db.locations receipt.to_ with
          | none => (db, { status := 400, error := some "No location found for warehouse" })
          | some location =>
            match receiptLoop location receipt now
                (populate db.products receipt.products) db with
            | (db1, some err) => (db1, err)
            | (db1, none) =>
              if Receipt.validate receipt = true then
                ({ db1 with
                    receipts :=
                      Receipt.save db1.receipts { receipt with status := Status.Done } },
                 { status := 200, error := none })
              else (db1, { status := 500, error := some receiptValidationError }) := rfl

theorem validateDelivery_def (db : Db) (id now : Nat) :
    validateDelivery db id now =
      match Delivery.findById db.deliveries id with
      | none => (db, { status := 500, error := some nullError })
      | some delivery =>
        if delivery.status = Status.Done then
          (db, { status := 400, error := some "Already validated" })
        else
          match Location.findOne db.locations delivery.from_ with
          | none => (db, { status := 400, error := some "No location found for warehouse" })
          | some location =>
            match deliveryLoop location delivery now
                (populate db.products delivery.products) db with
            | (db1, some err) => (db1, err)
            | (db1, none) =>
              if Delivery.validate delivery = true then
                ({ db1 with
                    deliveries :=
                      Delivery.save db1.deliveries { delivery with status := Status.Done } },
                 { status := 200, error := none })
              else (db1, { status := 500, error := some deliveryValidationError }) := rfl

theorem transfer_def (db : Db) (product fromLocation toLocation : Nat) (quantity : Int)
    (now : Nat) :
    transfer db product fromLocation toLocation quantity now =
      match Stock.findOne db.stocks product fromLocation with
      | none => (db, { status := 400, error := some "Insufficient stock at source location" })
      | some sourceStock =>
        if sourceStock.quantity < quantity then
          (db, { status := 400, error := some "Insufficient stock at source location" })
        else
          let sourceStock := { sourceStock with quantity := sourceStock.quantity - quantity }
          let db := { db with stocks := Stock.save db.stocks sourceStock }
          let destStock := (Stock.findOne db.stocks product toLocation).getD
            { product := product, location := toLocation, quantity := 0 }
          let destStock := { destStock with quantity := destStock.quantity + quantity }
          let db := { db with stocks := Stock.save db.stocks destStock }
          let move : StockMove :=
            { product := product, quantity := quantity, type := MoveType.Internal,
              fromLocation := some fromLocation, toLocation := some toLocation,
              reference := "INT/" ++ toString now, date := now }
          let db := { db with moves := StockMove.create db.moves move }
          (db, { status := 200, error := none }) := rfl

theorem adjustment_def (db : Db) (product location : Nat) (quantity : Int) (type : String)
    (now : Nat) :
    adjustment db product location quantity type now =
      (let stock := (Stock.findOne db.stocks product location).getD
        { product := product, location := location, quantity := 0 }
      let oldQty := stock.quantity
      let stock := if type = "Set" then { stock with quantity := quantity }
        else { stock with quantity := stock.quantity + quantity }
      let db := { db with stocks := Stock.save db.stocks stock }
      let diff := stock.quantity - oldQty
      let move : StockMove :=
        { product := product, quantity := diff, type := MoveType.Adjustment,
          fromLocation := none, toLocation := some location,
          reference := "ADJ/" ++ toString now, date := now }
      let db := { db with moves := StockMove.create db.moves move }
      (db, { status := 200, error := none })) := rfl

/-! ### The Stock collection -/

theorem findOne_save (stocks : List Stock) (s : Stock) (p l : Nat) :
    Stock.findOne (Stock.save stocks s) p l =
      if s.product = p ∧ s.location = l then some s else Stock.findOne stocks p l := by
  induction stocks with
  | nil =>
    by_cases h : s.product = p ∧ s.location = l <;> simp [Stock.save, Stock.findOne, h]
  | cons t ts ih =>
    unfold Stock.findOne at ih ⊢
    by_cases ht : t.product = s.product ∧ t.location = s.location
    · rw [Stock.save, if_pos ht]
      by_cases h : s.product = p ∧ s.location = l
      · rw [if_pos h, List.find?_cons, decide_eq_true h]
      · have h2 : ¬ (t.product = p ∧ t.location = l) := by
          rw [ht.1, ht.2]; exact h
        rw [if_neg h, List.find?_cons, decide_eq_false h, List.find?_cons, decide_eq_false h2]
    · rw [Stock.save, if_neg ht]
      by_cases h2 : t.product = p ∧ t.location = l
      · have h : ¬ (s.product = p ∧ s.location = l) := by
          rintro ⟨h3, h4⟩
          exact ht ⟨h2.1.trans h3.symm, h2.2.trans h4.symm⟩
        rw [if_neg h, List.find?_cons, decide_eq_true h2, List.find?_cons, decide_eq_true h2]
      · rw [List.find?_cons, decide_eq_false h2, ih, List.find?_cons, decide_eq_false h2]

theorem quantityOf_save (stocks : List Stock) (s : Stock) (p l : Nat) :
    quantityOf (Stock.save stocks s) p l =
      if s.product = p ∧ s.location = l then s.quantity else quantityOf stocks p l := by
  unfold quantityOf
  rw [findOne_save]
  by_cases h : s.product = p ∧ s.location = l <;> simp [h]

theorem findOne_key {stocks : List Stock} {p l : Nat} {s : Stock}
    (h : Stock.findOne stocks p l = some s) : s.product = p ∧ s.location = l := by
  unfold Stock.findOne at h
  have := List.find?_some h
  simpa using this

theorem findOne_mem {stocks : List Stock} {p l : Nat} {s : Stock}
    (h : Stock.findOne stocks p l = some s) : s ∈ stocks := by
  unfold Stock.findOne at h
  exact List.mem_of_find?_eq_some h

theorem getD_product (stocks : List Stock) (p l : Nat) :
    ((Stock.findOne stocks p l).getD { product := p, location := l, quantity := 0 }).product
      = p := by
  cases h : Stock.findOne stocks p l with
  | none => rfl
  | some s => exact (findOne_key h).1

theorem getD_location (stocks : List Stock) (p l : Nat) :
    ((Stock.findOne stocks p l).getD { product := p, location := l, quantity := 0 }).location
      = l := by
  cases h : Stock.findOne stocks p l with
  | none => rfl
  | some s => exact (findOne_key h).2

theorem getD_quantity (stocks : List Stock) (p l : Nat) :
    ((Stock.findOne stocks p l).getD { product := p, location := l, quantity := 0 }).quantity
      = quantityOf stocks p l := by
  unfold quantityOf
  cases h : Stock.findOne stocks p l with
  | none => rfl
  | some s => rfl

theorem quantityOf_of_findOne {stocks : List Stock} {p l : Nat} {s : Stock}
    (h : Stock.findOne stocks p l = some s) : quantityOf stocks p l = s.quantity := by
  unfold quantityOf; rw [h]

/-! ### The ledger fold -/

theorem ledgerFold_create (moves : List StockMove) (m : StockMove) (p l : Nat) :
    ledgerFold (StockMove.create moves m) p l =
      ledgerFold moves p l + (if m.product = p then contribution m l else 0) := by
  unfold ledgerFold StockMove.create
  rw [List.foldl_append]
  by_cases h : m.product = p <;> simp [h]

theorem receiptLoop_projected (location : Location) (receipt : Receipt) (now : Nat)
    (items : List PopulatedItem) (db : Db) (h : Projected db) :
    Projected (receiptLoop location receipt now items db).1 := by
  induction items generalizing db with
  | nil => exact h
  | cons item rest ih =>
    rw [receiptLoop_cons]
    cases hp : item.product with
    | none => exact h
    | some prod =>
      simp only
      apply ih
      intro p l
      simp only [ledgerFold_create, quantityOf_save, getD_product, getD_location,
        getD_quantity, contribution, receiptMove]
      rw [← h p l]
      by_cases h1 : prod._id = p <;> by_cases h2 : location._id = l <;> simp [h1, h2]

theorem deliveryLoop_projected (location : Location) (delivery : Delivery) (now : Nat)
    (items : List PopulatedItem) (db : Db) (h : Projected db) :
    Projected (deliveryLoop location delivery now items db).1 := by
  induction items generalizing db with
  | nil => exact h
  | cons item rest ih =>
    rw [deliveryLoop_cons]
    cases hp : item.product with
    | none => exact h
    | some prod =>
      simp only
      cases hf : Stock.findOne db.stocks prod._id location._id with
      | none => exact h
      | some stock =>
        simp only
        split
        · exact h
        · apply ih
          intro p l
          simp only [ledgerFold_create, quantityOf_save, contribution, deliveryMove,
            (findOne_key hf).1, (findOne_key hf).2]
          rw [← h p l, ← quantityOf_of_findOne hf]
          by_cases h1 : prod._id = p <;> by_cases h2 : location._id = l <;>
            simp [h1, h2]
          ring

/-! ### The validation routes once their guards are passed -/

theorem validateReceipt_loop_none {db db1 : Db} {id now : Nat} {receipt : Receipt}
    {location : Location} (hf : Receipt.findById db.receipts id = some receipt)
    (hs : receipt.status ≠ Status.Done)
    (hl : Location.findOne db.locations receipt.to_ = some location)
    (hloop : receiptLoop location receipt now (populate db.products receipt.products) db
      = (db1, none))
    (hv : Receipt.validate receipt = true) :
    validateReceipt db id now =
      ({ db1 with receipts := Receipt.save db1.receipts { receipt with status := Status.Done } },
       { status := 200, error := none }) := by
  simp only [validateReceipt_def, hf, hs, if_false, hl, hloop, hv, if_true]

theorem validateReceipt_loop_invalid {db db1 : Db} {id now : Nat} {receipt : Receipt}
    {location : Location} (hf : Receipt.findById db.receipts id = some receipt)
    (hs : receipt.status ≠ Status.Done)
    (hl : Location.findOne db.locations receipt.to_ = some location)
    (hloop : receiptLoop location receipt now (populate db.products receipt.products) db
      = (db1, none))
    (hv : Receipt.validate receipt = false) :
    validateReceipt db id now
      = (db1, { status := 500, error := some receiptValidationError }) := by
  simp [validateReceipt_def, hf, hs, hl, hloop, hv]

theorem validateReceipt_loop_some {db db1 : Db} {id now : Nat} {receipt : Receipt}
    {location : Location} {err : Response}
    (hf : Receipt.findById db.receipts id = some receipt)
    (hs : receipt.status ≠ Status.Done)
    (hl : Location.findOne db.locations receipt.to_ = some location)
    (hloop : receiptLoop location receipt now (populate db.products receipt.products) db
      = (db1, some err)) :
    validateReceipt db id now = (db1, err) := by
  simp only [validateReceipt_def, hf, hs, if_false, hl, hloop]

theorem validateDelivery_loop_none {db db1 : Db} {id now : Nat} {delivery : Delivery}
    {location : Location} (hf : Delivery.findById db.deliveries id = some delivery)
    (hs : delivery.status ≠ Status.Done)
    (hl : Location.findOne db.locations delivery.from_ = some location)
    (hloop : deliveryLoop location delivery now (populate db.products delivery.products) db
      = (db1, none))
    (hv : Delivery.validate delivery = true) :
    validateDelivery db id now =
      ({ db1 with deliveries :=
          Delivery.save db1.deliveries { delivery with status := Status.Done } },
       { status := 200, error := none }) := by
  simp only [validateDelivery_def, hf, hs, if_false, hl, hloop, hv, if_true]

theorem validateDelivery_loop_invalid {db db1 : Db} {id now : Nat} {delivery : Delivery}
    {location : Location} (hf : Delivery.findById db.deliveries id = some delivery)
    (hs : delivery.status ≠ Status.Done)
    (hl : Location.findOne db.locations delivery.from_ = some location)
    (hloop : deliveryLoop location delivery now (populate db.products delivery.products) db
      = (db1, none))
    (hv : Delivery.validate delivery = false) :
    validateDelivery db id now
      = (db1, { status := 500, error := some deliveryValidationError }) := by
  simp [validateDelivery_def, hf, hs, hl, hloop, hv]

theorem validateDelivery_loop_some {db db1 : Db} {id now : Nat} {delivery : Delivery}
    {location : Location} {err : Response}
    (hf : Delivery.findById db.deliveries id = some delivery)
    (hs : delivery.status ≠ Status.Done)
    (hl : Location.findOne db.locations delivery.from_ = some location)
    (hloop : deliveryLoop location delivery now (populate db.products delivery.products) db
      = (db1, some err)) :
    validateDelivery db id now = (db1, err) := by
  simp only [validateDelivery_def, hf, hs, if_false, hl, hloop]

theorem validateReceipt_done {db : Db} {id now : Nat} {receipt : Receipt}
    (hf : Receipt.findById db.receipts id = some receipt)
    (hs : receipt.status = Status.Done) :
    validateReceipt db id now = (db, { status := 400, error := some "Already validated" }) := by
  simp only [validateReceipt_def, hf, hs, if_true]

theorem validateDelivery_done {db : Db} {id now : Nat} {delivery : Delivery}
    (hf : Delivery.findById db.deliveries id = some delivery)
    (hs : delivery.status = Status.Done) :
    validateDelivery db id now = (db, { status := 400, error := some "Already validated" }) := by
  simp only [validateDelivery_def, hf, hs, if_true]

/-- The ledger part (stocks and moves) of what receipt validation leaves is
what its loop leaves, or the database is untouched. -/
theorem validateReceipt_ledger (db : Db) (id now : Nat) :
    (validateReceipt db id now).1 = db ∨
      ∃ receipt location,
        Receipt.findById db.receipts id = some receipt ∧
        receipt.status ≠ Status.Done ∧
        Location.findOne db.locations receipt.to_ = some location ∧
        (validateReceipt db id now).1.stocks =
          (receiptLoop location receipt now (populate db.products receipt.products) db).1.stocks ∧
        (validateReceipt db id now).1.moves =
          (receiptLoop location receipt now (populate db.products receipt.products) db).1.moves := by
  cases hf : Receipt.findById db.receipts id with
  | none => left; simp only [validateReceipt_def, hf]
  | some receipt =>
    by_cases hs : receipt.status = Status.Done
    · left; rw [validateReceipt_done hf hs]
    · cases hl : Location.findOne db.locations receipt.to_ with
      | none => left; simp only [validateReceipt_def, hf, hs, if_false, hl]
      | some location =>
        right
        refine ⟨receipt, location, rfl, hs, hl, ?_⟩
        cases hloop : receiptLoop location receipt now (populate db.products receipt.products) db with
        | mk db1 r =>
          cases r with
          | none =>
            cases hv : Receipt.validate receipt with
            | true => rw [validateReceipt_loop_none hf hs hl hloop hv]; exact ⟨rfl, rfl⟩
            | false => rw [validateReceipt_loop_invalid hf hs hl hloop hv]; exact ⟨rfl, rfl⟩
          | some err => rw [validateReceipt_loop_some hf hs hl hloop]; exact ⟨rfl, rfl⟩

/-- The ledger part (stocks and moves) of what delivery validation leaves is
what its loop leaves, or the database is untouched. -/
theorem validateDelivery_ledger (db : Db) (id now : Nat) :
    (validateDelivery db id now).1 = db ∨
      ∃ delivery location,
        Delivery.findById db.deliveries id = some delivery ∧
        delivery.status ≠ Status.Done ∧
        Location.findOne db.locations delivery.from_ = some location ∧
        (validateDelivery db id now).1.stocks =
          (deliveryLoop location delivery now (populate db.products delivery.products) db).1.stocks ∧
        (validateDelivery db id now).1.moves =
          (deliveryLoop location delivery now (populate db.products delivery.products) db).1.moves := by
  cases hf : Delivery.findById db.deliveries id with
  | none => left; simp only [validateDelivery_def, hf]
  | some delivery =>
    by_cases hs : delivery.status = Status.Done
    · left; rw [validateDelivery_done hf hs]
    · cases hl : Location.findOne db.locations delivery.from_ with
      | none => left; simp only [validateDelivery_def, hf, hs, if_false, hl]
      | some location =>
        right
        refine ⟨delivery, location, rfl, hs, hl, ?_⟩
        cases hloop : deliveryLoop location delivery now (populate db.products delivery.products) db with
        | mk db1 r =>
          cases r with
          | none =>
            cases hv : Delivery.validate delivery with
            | true => rw [validateDelivery_loop_none hf hs hl hloop hv]; exact ⟨rfl, rfl⟩
            | false => rw [validateDelivery_loop_invalid hf hs hl hloop hv]; exact ⟨rfl, rfl⟩
          | some err => rw [validateDelivery_loop_some hf hs hl hloop]; exact ⟨rfl, rfl⟩

theorem validateReceipt_projected (db : Db) (id now : Nat) (h : Projected db) :
    Projected (validateReceipt db id now).1 := by
  rcases validateReceipt_ledger db id now with h0 | ⟨receipt, location, _, _, _, h1, h2⟩
  · rw [h0]; exact h
  · intro p l
    rw [h1, h2]
    exact receiptLoop_projected location receipt now _ db h p l

theorem validateDelivery_projected (db : Db) (id now : Nat) (h : Projected db) :
    Projected (validateDelivery db id now).1 := by
  rcases validateDelivery_ledger db id now with h0 | ⟨delivery, location, _, _, _, h1, h2⟩
  · rw [h0]; exact h
  · intro p l
    rw [h1, h2]
    exact deliveryLoop_projected location delivery now _ db h p l

theorem transfer_projected (db : Db) (p a b : Nat) (q : Int) (now : Nat) (h : Projected db) :
    Projected (transfer db p a b q now).1 := by
  rw [transfer_def]
  cases hf : Stock.findOne db.stocks p a with
  | none => exact h
  | some sourceStock =>
    simp only
    split
    · exact h
    · intro p1 l1
      simp only [ledgerFold_create, quantityOf_save, contribution, getD_product,
        getD_location, getD_quantity, (findOne_key hf).1, (findOne_key hf).2]
      rw [← h p1 l1, ← quantityOf_of_findOne hf]
      by_cases h1 : p = p1 <;> by_cases h2 : a = l1 <;> by_cases h3 : b = l1 <;>
        simp [h1, h2, h3]
      ring

theorem adjustment_projected (db : Db) (p l : Nat) (q : Int) (t : String) (now : Nat)
    (h : Projected db) : Projected (adjustment db p l q t now).1 := by
  rw [adjustment_def]
  intro p1 l1
  simp only [ledgerFold_create, contribution]
  rw [← h p1 l1]
  by_cases ht : t = "Set"
  · simp only [ht, if_true, quantityOf_save, getD_product, getD_location, getD_quantity]
    by_cases h1 : p = p1 <;> by_cases h2 : l = l1 <;> simp [h1, h2]
  · simp only [ht, if_false, quantityOf_save, getD_product, getD_location, getD_quantity]
    by_cases h1 : p = p1 <;> by_cases h2 : l = l1 <;> simp [h1, h2]

theorem step_projected (db : Db) (op : Op) (hwf : op.wellFormed = true) (h : Projected db) :
    Projected (step db op) := by
  cases op with
  | validateReceipt id now => exact validateReceipt_projected db id now h
  | validateDelivery id now => exact validateDelivery_projected db id now h
  | transfer p a b q now =>
    cases b with
    | id b => exact transfer_projected db p a b q now h
    | missing => simp [Op.wellFormed] at hwf
    | malformed => simp [Op.wellFormed] at hwf
  | adjustment p l q t now => exact adjustment_projected db p l q t now h
  | catalog ls ps rs ds => exact h

theorem run_projected (ops : List Op) (db : Db) (hwf : ops.all Op.wellFormed = true)
    (h : Projected db) : Projected (run db ops) := by
  induction ops generalizing db with
  | nil => exact h
  | cons op rest ih =>
    rw [List.all_cons, Bool.and_eq_true] at hwf
    exact ih (step db op) hwf.2 (step_projected db op hwf.1 h)

/-! ### Non-negative stock -/

theorem save_nonneg (stocks : List Stock) (s : Stock)
    (h : ∀ t ∈ stocks, 0 ≤ t.quantity) (hs : 0 ≤ s.quantity) :
    ∀ t ∈ Stock.save stocks s, 0 ≤ t.quantity := by
  induction stocks with
  | nil =>
    intro t ht
    simp only [Stock.save, List.mem_singleton] at ht
    rw [ht]; exact hs
  | cons u us ih =>
    intro t ht
    unfold Stock.save at ht
    split at ht
    · rcases List.mem_cons.1 ht with h1 | h1
      · rw [h1]; exact hs
      · exact h t (List.mem_cons_of_mem _ h1)
    · rcases List.mem_cons.1 ht with h1 | h1
      · rw [h1]; exact h u (List.mem_cons_self _ _)
      · exact ih (fun v hv => h v (List.mem_cons_of_mem _ hv)) t h1

theorem quantityOf_nonneg (stocks : List Stock) (p l : Nat)
    (h : ∀ t ∈ stocks, 0 ≤ t.quantity) : 0 ≤ quantityOf stocks p l := by
  unfold quantityOf
  cases hf : Stock.findOne stocks p l with
  | none => exact le_refl 0
  | some s => exact h s (findOne_mem hf)

theorem receiptLoop_catalog (location : Location) (receipt : Receipt) (now : Nat)
    (items : List PopulatedItem) (db : Db) :
    (receiptLoop location receipt now items db).1.locations = db.locations ∧
    (receiptLoop location receipt now items db).1.products = db.products ∧
    (receiptLoop location receipt now items db).1.receipts = db.receipts ∧
    (receiptLoop location receipt now items db).1.deliveries = db.deliveries := by
  induction items generalizing db with
  | nil => exact ⟨rfl, rfl, rfl, rfl⟩
  | cons item rest ih =>
    rw [receiptLoop_cons]
    cases hp : item.product with
    | none => exact ⟨rfl, rfl, rfl, rfl⟩
    | some prod => simp only; exact ih _

theorem deliveryLoop_catalog (location : Location) (delivery : Delivery) (now : Nat)
    (items : List PopulatedItem) (db : Db) :
    (deliveryLoop location delivery now items db).1.locations = db.locations ∧
    (deliveryLoop location delivery now items db).1.products = db.products ∧
    (deliveryLoop location delivery now items db).1.receipts = db.receipts ∧
    (deliveryLoop location delivery now items db).1.deliveries = db.deliveries := by
  induction items generalizing db with
  | nil => exact ⟨rfl, rfl, rfl, rfl⟩
  | cons item rest ih =>
    rw [deliveryLoop_cons]
    cases hp : item.product with
    | none => exact ⟨rfl, rfl, rfl, rfl⟩
    | some prod =>
      simp only
      cases hf : Stock.findOne db.stocks prod._id location._id with
      | none => exact ⟨rfl, rfl, rfl, rfl⟩
      | some stock =>
        simp only
        split
        · exact ⟨rfl, rfl, rfl, rfl⟩
        · exact ih _

theorem receiptLoop_nonneg (location : Location) (receipt : Receipt) (now : Nat)
    (items : List PopulatedItem) (db : Db) (hq : ∀ it ∈ items, 0 ≤ it.quantity)
    (h : StocksNonneg db) : StocksNonneg (receiptLoop location receipt now items db).1 := by
  induction items generalizing db with
  | nil => exact h
  | cons item rest ih =>
    rw [receiptLoop_cons]
    cases hp : item.product with
    | none => exact h
    | some prod =>
      simp only
      apply ih _ (fun it hit => hq it (List.mem_cons_of_mem _ hit))
      apply save_nonneg _ _ h
      simp only [getD_quantity]
      exact add_nonneg (quantityOf_nonneg _ _ _ h) (hq item (List.mem_cons_self _ _))

theorem deliveryLoop_nonneg (location : Location) (delivery : Delivery) (now : Nat)
    (items : List PopulatedItem) (db : Db) (h : StocksNonneg db) :
    StocksNonneg (deliveryLoop location delivery now items db).1 := by
  induction items generalizing db with
  | nil => exact h
  | cons item rest ih =>
    rw [deliveryLoop_cons]
    cases hp : item.product with
    | none => exact h
    | some prod =>
      simp only
      cases hf : Stock.findOne db.stocks prod._id location._id with
      | none => exact h
      | some stock =>
        simp only
        split
        · exact h
        · rename_i hlt
          apply ih
          apply save_nonneg _ _ h
          simp only
          omega

theorem populate_quantity (products : List Product) (items : List LineItem)
    (h : ∀ it ∈ items, 0 ≤ it.quantity) : ∀ it ∈ populate products items, 0 ≤ it.quantity := by
  intro it hit
  unfold populate at hit
  rcases List.mem_map.1 hit with ⟨li, hli, rfl⟩
  exact h li hli

theorem findById_receipt_mem {receipts : List Receipt} {id : Nat} {r : Receipt}
    (h : Receipt.findById receipts id = some r) : r ∈ receipts := by
  unfold Receipt.findById at h
  exact List.mem_of_find?_eq_some h

theorem receipt_save_mem (receipts : List Receipt) (r t : Receipt)
    (h : t ∈ Receipt.save receipts r) : t ∈ receipts ∨ t = r := by
  induction receipts with
  | nil => simp [Receipt.save] at h
  | cons u us ih =>
    unfold Receipt.save at h
    split at h
    · rcases List.mem_cons.1 h with h1 | h1
      · exact Or.inr h1
      · exact Or.inl (List.mem_cons_of_mem _ h1)
    · rcases List.mem_cons.1 h with h1 | h1
      · exact Or.inl (h1 ▸ List.mem_cons_self _ _)
      · rcases ih h1 with h2 | h2
        · exact Or.inl (List.mem_cons_of_mem _ h2)
        · exact Or.inr h2

theorem receiptLinesNonneg_iff (receipts : List Receipt) :
    receiptLinesNonneg receipts = true ↔
      ∀ r ∈ receipts, ∀ it ∈ r.products, 0 ≤ it.quantity := by
  simp [receiptLinesNonneg, List.all_eq_true]

/-- What receipt validation leaves in the receipts collection. -/
theorem validateReceipt_receipts (db : Db) (id now : Nat) :
    (validateReceipt db id now).1.receipts = db.receipts ∨
      ∃ receipt, Receipt.findById db.receipts id = some receipt ∧
        (validateReceipt db id now).1.receipts =
          Receipt.save db.receipts { receipt with status := Status.Done } := by
  cases hf : Receipt.findById db.receipts id with
  | none => left; simp only [validateReceipt_def, hf]
  | some receipt =>
    by_cases hs : receipt.status = Status.Done
    · left; rw [validateReceipt_done hf hs]
    · cases hl : Location.findOne db.locations receipt.to_ with
      | none => left; simp only [validateReceipt_def, hf, hs, if_false, hl]
      | some location =>
        have hc := receiptLoop_catalog location receipt now
          (populate db.products receipt.products) db
        cases hloop : receiptLoop location receipt now (populate db.products receipt.products) db with
        | mk db1 r =>
          rw [hloop] at hc
          cases r with
          | none =>
            cases hv : Receipt.validate receipt with
            | true =>
              right
              refine ⟨receipt, rfl, ?_⟩
              rw [validateReceipt_loop_none hf hs hl hloop hv]
              simp only
              rw [hc.2.2.1]
            | false =>
              left
              rw [validateReceipt_loop_invalid hf hs hl hloop hv]
              exact hc.2.2.1
          | some err =>
            left
            rw [validateReceipt_loop_some hf hs hl hloop]
            exact hc.2.2.1

theorem validateReceipt_nonneg (db : Db) (id now : Nat)
    (hr : receiptLinesNonneg db.receipts = true) (h : StocksNonneg db) :
    StocksNonneg (validateReceipt db id now).1 ∧
      receiptLinesNonneg (validateReceipt db id now).1.receipts = true := by
  rw [receiptLinesNonneg_iff] at hr
  constructor
  · rcases validateReceipt_ledger db id now with h0 | ⟨receipt, location, hf, _, _, h1, _⟩
    · rw [h0]; exact h
    · unfold StocksNonneg
      rw [h1]
      exact receiptLoop_nonneg location receipt now _ db
        (populate_quantity _ _ (hr receipt (findById_receipt_mem hf))) h
  · rcases validateReceipt_receipts db id now with h0 | ⟨receipt, hf, h1⟩
    · rw [h0, receiptLinesNonneg_iff]; exact hr
    · rw [h1, receiptLinesNonneg_iff]
      intro r hmem
      rcases receipt_save_mem _ _ _ hmem with h2 | h2
      · exact hr r h2
      · rw [h2]; exact hr receipt (findById_receipt_mem hf)

theorem validateDelivery_nonneg (db : Db) (id now : Nat) (h : StocksNonneg db) :
    StocksNonneg (validateDelivery db id now).1 := by
  rcases validateDelivery_ledger db id now with h0 | ⟨delivery, location, _, _, _, h1, _⟩
  · rw [h0]; exact h
  · unfold StocksNonneg
    rw [h1]
    exact deliveryLoop_nonneg location delivery now _ db h

theorem validateDelivery_receipts (db : Db) (id now : Nat) :
    (validateDelivery db id now).1.receipts = db.receipts := by
  cases hf : Delivery.findById db.deliveries id with
  | none => simp only [validateDelivery_def, hf]
  | some delivery =>
    by_cases hs : delivery.status = Status.Done
    · rw [validateDelivery_done hf hs]
    · cases hl : Location.findOne db.locations delivery.from_ with
      | none => simp only [validateDelivery_def, hf, hs, if_false, hl]
      | some location =>
        have hc := deliveryLoop_catalog location delivery now
          (populate db.products delivery.products) db
        cases hloop : deliveryLoop location delivery now (populate db.products delivery.products) db with
        | mk db1 r =>
          rw [hloop] at hc
          cases r with
          | none =>
            cases hv : Delivery.validate delivery with
            | true => rw [validateDelivery_loop_none hf hs hl hloop hv]; exact hc.2.2.1
            | false => rw [validateDelivery_loop_invalid hf hs hl hloop hv]; exact hc.2.2.1
          | some err => rw [validateDelivery_loop_some hf hs hl hloop]; exact hc.2.2.1

theorem transfer_nonneg (db : Db) (p a b : Nat) (q : Int) (now : Nat) (hq : 0 ≤ q)
    (h : StocksNonneg db) : StocksNonneg (transfer db p a b q now).1 := by
  rw [transfer_def]
  cases hf : Stock.findOne db.stocks p a with
  | none => exact h
  | some sourceStock =>
    simp only
    split
    · exact h
    · rename_i hlt
      have h1 : ∀ t ∈ Stock.save db.stocks
          { sourceStock with quantity := sourceStock.quantity - q }, 0 ≤ t.quantity := by
        apply save_nonneg _ _ h
        simp only
        omega
      apply save_nonneg _ _ h1
      simp only [getD_quantity]
      exact add_nonneg (quantityOf_nonneg _ _ _ h1) hq

theorem adjustment_nonneg (db : Db) (p l : Nat) (q : Int) (t : String) (now : Nat)
    (hq : 0 ≤ q) (h : StocksNonneg db) : StocksNonneg (adjustment db p l q t now).1 := by
  rw [adjustment_def]
  apply save_nonneg _ _ h
  by_cases ht : t = "Set"
  · simp only [ht, if_true]; exact hq
  · simp only [ht, if_false, getD_quantity]
    exact add_nonneg (quantityOf_nonneg _ _ _ h) hq

/-- A transfer with a quantity of at least 0 keeps the stock non-negative also
when it stops after the source was saved. -/
theorem transferWith_nonneg (db : Db) (p a : Nat) (b : IdField) (q : Int) (now : Nat)
    (hq : 0 ≤ q) (h : StocksNonneg db) :
    StocksNonneg (transferWith exactArith db p a b q now).1 ∧
      (transferWith exactArith db p a b q now).1.receipts = db.receipts := by
  cases b with
  | id b =>
    refine ⟨transfer_nonneg db p a b q now hq h, ?_⟩
    simp only [transferWith]
    split
    · rfl
    · split
      · rfl
      · rfl
  | missing =>
    simp only [transferWith]
    split
    · exact ⟨h, rfl⟩
    · split
      · exact ⟨h, rfl⟩
      · rename_i sourceStock hf hlt
        refine ⟨?_, rfl⟩
        apply save_nonneg _ _ h
        simp only [exactArith]
        omega
  | malformed =>
    simp only [transferWith]
    split
    · exact ⟨h, rfl⟩
    · split
      · exact ⟨h, rfl⟩
      · rename_i sourceStock hf hlt
        refine ⟨?_, rfl⟩
        apply save_nonneg _ _ h
        simp only [exactArith]
        omega

theorem step_nonneg (db : Db) (op : Op) (hop : op.nonneg = true)
    (hr : receiptLinesNonneg db.receipts = true) (h : StocksNonneg db) :
    StocksNonneg (step db op) ∧ receiptLinesNonneg (step db op).receipts = true := by
  cases op with
  | validateReceipt id now => exact validateReceipt_nonneg db id now hr h
  | validateDelivery id now =>
    refine ⟨validateDelivery_nonneg db id now h, ?_⟩
    show receiptLinesNonneg (validateDelivery db id now).1.receipts = true
    rw [validateDelivery_receipts]; exact hr
  | transfer p a b q now =>
    simp only [Op.nonneg, decide_eq_true_eq] at hop
    have ht := transferWith_nonneg db p a b q now hop h
    refine ⟨ht.1, ?_⟩
    simp only [step, stepWith]
    rw [ht.2]; exact hr
  | adjustment p l q t now =>
    simp only [Op.nonneg, decide_eq_true_eq] at hop
    exact ⟨adjustment_nonneg db p l q t now hop h, hr⟩
  | catalog ls ps rs ds => exact ⟨h, hop⟩

theorem run_nonneg (ops : List Op) (db : Db) (hops : ops.all Op.nonneg = true)
    (hr : receiptLinesNonneg db.receipts = true) (h : StocksNonneg db) :
    StocksNonneg (run db ops) := by
  induction ops generalizing db with
  | nil => exact h
  | cons op rest ih =>
    rw [List.all_cons, Bool.and_eq_true] at hops
    have hs := step_nonneg db op hops.1 hr h
    exact ih (step db op) hops.2 hs.2 hs.1

/-! ### C1: non-negative stock -/

/-- C1, as stated, fails: on an empty store one adjustment with mode Set and
value -3 leaves a Stock record of quantity -3. -/
theorem stock_negative_after_negative_set :
    (run (emptyLedger [] [] [] []) [Op.adjustment 1 1 (-3) "Set" 0]).stocks
        = [{ product := 1, location := 1, quantity := -3 }] ∧
      ¬ StocksNonneg (run (emptyLedger [] [] [] []) [Op.adjustment 1 1 (-3) "Set" 0]) := by
  constructor
  · rfl
  · decide

/-- C1, amended: starting from an empty stock store, after every finite
sequence of requests (receipt validation, delivery validation, transfer,
adjustment, and CRUD on the catalog and documents) in which every receipt
line quantity, transfer quantity and adjustment value is at least 0, every
Stock record has quantity at least 0. -/
theorem stock_nonneg_of_nonneg_requests (locations : List Location) (products : List Product)
    (receipts : List Receipt) (deliveries : List Delivery) (ops : List Op)
    (hr : receiptLinesNonneg receipts = true) (hops : ops.all Op.nonneg = true) :
    ∀ s ∈ (run (emptyLedger locations products receipts deliveries) ops).stocks,
      0 ≤ s.quantity :=
  run_nonneg ops (emptyLedger locations products receipts deliveries) hops hr
    (fun _ hs => absurd hs (List.not_mem_nil _))

/-- The amended C1 at the sample request sequence. -/
theorem stock_nonneg_of_nonneg_requests_witness :
    receiptLinesNonneg [sampleReceipt] = true ∧ sampleOps.all Op.nonneg = true ∧
      quantityOf (run sampleDb sampleOps).stocks 100 10 = 20 ∧
      StocksNonneg (run sampleDb sampleOps) :=
  ⟨by decide, by decide, by decide,
   stock_nonneg_of_nonneg_requests sampleLocations sampleProducts [sampleReceipt]
    [sampleDelivery] sampleOps (by decide) (by decide)⟩

/-! ### C2: the Stock collection is the fold of the StockMove log -/

/-- The nearest double of an integer of magnitude below `2 ^ 53` is the
integer. -/
theorem toNumber_of_lt (n : Int) (h : n.natAbs < 2 ^ 53) : toNumber n = n := by
  have he : excessBits 1024 n.natAbs = 0 := by
    show excessBits (1023 + 1) n.natAbs = 0
    rw [excessBits, if_pos h]
  unfold toNumber roundNat
  rw [he]
  simp only [pow_zero, Nat.div_one, Nat.mod_one, Nat.mul_zero, Nat.lt_one_iff, if_true,
    Nat.mul_one]
  split
  · omega
  · omega

/-- C2, as stated, fails: after the sample receipt was validated (50 bolts at
location 10), a transfer of 10 bolts whose `toLocation` is no ObjectId is
answered 500 after the source was saved: the stock of bolts at location 10 is
40, no move was logged, and the fold of the log is still 50. -/
theorem ledger_fold_broken_by_half_run_transfer :
    (transferWith toNumber sampleStocked 100 10 IdField.malformed 10 0).2
        = { status := 500, error := some castError } ∧
      runWith toNumber sampleDb sampleHalfTransfer = run sampleDb sampleHalfTransfer ∧
      (runWith toNumber sampleDb sampleHalfTransfer).moves.length = 2 ∧
      quantityOf (runWith toNumber sampleDb sampleHalfTransfer).stocks 100 10 = 40 ∧
      ledgerFold (runWith toNumber sampleDb sampleHalfTransfer).moves 100 10 = 50 := by
  decide

/-- C2, amended: starting from an empty stock store and an empty StockMove
log, after every finite sequence of requests (receipt validations, delivery
validations, transfers, adjustments, CRUD on the catalog and documents; those
answered with an error included) in which every transfer request carries a
well-formed `toLocation` and the Number arithmetic is exact (the database
reached with rounding to doubles is the one reached in exact arithmetic), the
quantity of every (product, location) pair, 0 when it has no Stock record,
equals the fold of the StockMove log for that product at that location. -/
theorem stock_eq_ledgerFold (locations : List Location) (products : List Product)
    (receipts : List Receipt) (deliveries : List Delivery) (ops : List Op) (p l : Nat)
    (hwf : ops.all Op.wellFormed = true)
    (hexact : runWith toNumber (emptyLedger locations products receipts deliveries) ops
      = run (emptyLedger locations products receipts deliveries) ops) :
    quantityOf
        (runWith toNumber (emptyLedger locations products receipts deliveries) ops).stocks p l
      = ledgerFold
        (runWith toNumber (emptyLedger locations products receipts deliveries) ops).moves
        p l := by
  rw [hexact]
  exact run_projected ops (emptyLedger locations products receipts deliveries) hwf
    (fun _ _ => rfl) p l

/-- The amended C2 at the sample request sequence: 20 bolts at location 10
after a receipt of 50, a transfer of 10 and a delivery of 20. -/
theorem stock_eq_ledgerFold_witness :
    sampleOps.all Op.wellFormed = true ∧
      runWith toNumber sampleDb sampleOps = run sampleDb sampleOps ∧
      quantityOf (runWith toNumber sampleDb sampleOps).stocks 100 10 = 20 ∧
      quantityOf (runWith toNumber sampleDb sampleOps).stocks 100 10
        = ledgerFold (runWith toNumber sampleDb sampleOps).moves 100 10 :=
  ⟨by decide, by decide, by decide,
   stock_eq_ledgerFold sampleLocations sampleProducts [sampleReceipt] [sampleDelivery]
     sampleOps 100 10 (by decide) (by decide)⟩

/-! ### The loops of the validation routes -/

/-- A receipt loop that runs to its end appends one move per line, in order. -/
theorem receiptLoop_none_moves (location : Location) (receipt : Receipt) (now : Nat)
    (items : List PopulatedItem) (db db1 : Db)
    (h : receiptLoop location receipt now items db = (db1, none)) :
    ∃ ms, db1.moves = db.moves ++ ms ∧
      List.Forall₂ (fun it m => ∃ prod, it.product = some prod ∧
        m = receiptMove location receipt now prod it.quantity) items ms := by
  induction items generalizing db with
  | nil =>
    simp only [receiptLoop_nil, Prod.mk.injEq, and_true] at h
    exact ⟨[], by rw [h, List.append_nil], List.Forall₂.nil⟩
  | cons item rest ih =>
    rw [receiptLoop_cons] at h
    cases hp : item.product with
    | none => rw [hp] at h; simp at h
    | some prod =>
      rw [hp] at h
      simp only at h
      rcases ih _ h with ⟨ms, h1, h2⟩
      refine ⟨receiptMove location receipt now prod item.quantity :: ms, ?_, ?_⟩
      · rw [h1]; simp [StockMove.create]
      · exact List.Forall₂.cons ⟨prod, hp, rfl⟩ h2

/-- A delivery loop that runs to its end appends one move per line, in order. -/
theorem deliveryLoop_none_moves (location : Location) (delivery : Delivery) (now : Nat)
    (items : List PopulatedItem) (db db1 : Db)
    (h : deliveryLoop location delivery now items db = (db1, none)) :
    ∃ ms, db1.moves = db.moves ++ ms ∧
      List.Forall₂ (fun it m => ∃ prod, it.product = some prod ∧
        m = deliveryMove location delivery now prod it.quantity) items ms := by
  induction items generalizing db with
  | nil =>
    simp only [deliveryLoop_nil, Prod.mk.injEq, and_true] at h
    exact ⟨[], by rw [h, List.append_nil], List.Forall₂.nil⟩
  | cons item rest ih =>
    rw [deliveryLoop_cons] at h
    cases hp : item.product with
    | none => rw [hp] at h; simp at h
    | some prod =>
      rw [hp] at h
      simp only at h
      cases hf : Stock.findOne db.stocks prod._id location._id with
      | none => rw [hf] at h; simp at h
      | some stock =>
        rw [hf] at h
        simp only at h
        split at h
        · simp at h
        · rcases ih _ h with ⟨ms, h1, h2⟩
          refine ⟨deliveryMove location delivery now prod item.quantity :: ms, ?_, ?_⟩
          · rw [h1]; simp [StockMove.create]
          · exact List.Forall₂.cons ⟨prod, hp, rfl⟩ h2

/-- A delivery loop left with a 400 response stopped at a line whose stock is
missing or too small, after running the lines before it to their end. -/
theorem deliveryLoop_400 (location : Location) (delivery : Delivery) (now : Nat)
    (items : List PopulatedItem) (db db1 : Db) (err : Response)
    (h : deliveryLoop location delivery now items db = (db1, some err))
    (h400 : err.status = 400) :
    ∃ pre item rest prod, items = pre ++ item :: rest ∧
      deliveryLoop location delivery now pre db = (db1, none) ∧
      item.product = some prod ∧
      (Stock.findOne db1.stocks prod._id location._id = none ∨
        quantityOf db1.stocks prod._id location._id < item.quantity) ∧
      err = { status := 400, error := some ("Insufficient stock for " ++ prod.name) } := by
  induction items generalizing db with
  | nil => simp [deliveryLoop_nil] at h
  | cons item rest ih =>
    rw [deliveryLoop_cons] at h
    cases hp : item.product with
    | none =>
      rw [hp] at h
      simp only [Prod.mk.injEq, Option.some.injEq] at h
      rw [← h.2] at h400
      simp at h400
    | some prod =>
      rw [hp] at h
      simp only at h
      cases hf : Stock.findOne db.stocks prod._id location._id with
      | none =>
        rw [hf] at h
        simp only [Prod.mk.injEq, Option.some.injEq] at h
        refine ⟨[], item, rest, prod, rfl, ?_, hp, ?_, h.2.symm⟩
        · rw [← h.1]; rfl
        · left; rw [← h.1]; exact hf
      | some stock =>
        rw [hf] at h
        simp only at h
        split at h
        · rename_i hlt
          simp only [Prod.mk.injEq, Option.some.injEq] at h
          refine ⟨[], item, rest, prod, rfl, ?_, hp, ?_, h.2.symm⟩
          · rw [← h.1]; rfl
          · right; rw [← h.1, quantityOf_of_findOne hf]; exact hlt
        · rename_i hlt
          rcases ih _ h with ⟨pre, it, rest1, prod1, h1, h2, h3, h4, h5⟩
          refine ⟨item :: pre, it, rest1, prod1, ?_, ?_, h3, h4, h5⟩
          · rw [h1]; rfl
          · rw [deliveryLoop_cons, hp]
            simp only
            rw [hf]
            simp only [hlt, if_false]
            exact h2

/-- A delivery loop left early answers 400, or 500 with the null message. -/
theorem deliveryLoop_status (location : Location) (delivery : Delivery) (now : Nat)
    (items : List PopulatedItem) (db db1 : Db) (err : Response)
    (h : deliveryLoop location delivery now items db = (db1, some err)) :
    err.status = 400 ∨ err = { status := 500, error := some nullError } := by
  induction items generalizing db with
  | nil => simp [deliveryLoop_nil] at h
  | cons item rest ih =>
    rw [deliveryLoop_cons] at h
    cases hp : item.product with
    | none =>
      rw [hp] at h
      simp only [Prod.mk.injEq, Option.some.injEq] at h
      exact Or.inr h.2.symm
    | some prod =>
      rw [hp] at h
      simp only at h
      cases hf : Stock.findOne db.stocks prod._id location._id with
      | none =>
        rw [hf] at h
        simp only [Prod.mk.injEq, Option.some.injEq] at h
        left; rw [← h.2]
      | some stock =>
        rw [hf] at h
        simp only at h
        split at h
        · simp only [Prod.mk.injEq, Option.some.injEq] at h
          left; rw [← h.2]
        · exact ih _ h

/-- No other error message of the validation routes is an insufficient-stock
message. -/
theorem ne_insufficient (c name : String) (hc : c.data.head? ≠ some 'I') :
    c ≠ "Insufficient stock for " ++ name := by
  intro h
  apply hc
  rw [h, String.data_append]
  rfl

/-- A delivery validation answered with an insufficient-stock message passed
the guards of the route and left its loop at the insufficient-stock return. -/
theorem validateDelivery_insufficient_inv (db : Db) (id now : Nat) (name : String)
    (h : (validateDelivery db id now).2.error = some ("Insufficient stock for " ++ name)) :
    ∃ delivery location,
      Delivery.findById db.deliveries id = some delivery ∧
      delivery.status ≠ Status.Done ∧
      Location.findOne db.locations delivery.from_ = some location ∧
      deliveryLoop location delivery now (populate db.products delivery.products) db
        = ((validateDelivery db id now).1,
           some { status := 400, error := some ("Insufficient stock for " ++ name) }) := by
  cases hf : Delivery.findById db.deliveries id with
  | none =>
    simp only [validateDelivery_def, hf, Option.some.injEq] at h
    exact absurd h (ne_insufficient _ _ (by decide))
  | some delivery =>
    by_cases hs : delivery.status = Status.Done
    · rw [validateDelivery_done hf hs] at h
      simp only [Option.some.injEq] at h
      exact absurd h (ne_insufficient _ _ (by decide))
    · cases hl : Location.findOne db.locations delivery.from_ with
      | none =>
        simp only [validateDelivery_def, hf, hs, if_false, hl, Option.some.injEq] at h
        exact absurd h (ne_insufficient _ _ (by decide))
      | some location =>
        refine ⟨delivery, location, rfl, hs, hl, ?_⟩
        cases hloop : deliveryLoop location delivery now
            (populate db.products delivery.products) db with
        | mk db1 r =>
          cases r with
          | none =>
            cases hv : Delivery.validate delivery with
            | true =>
              rw [validateDelivery_loop_none hf hs hl hloop hv] at h
              simp at h
            | false =>
              rw [validateDelivery_loop_invalid hf hs hl hloop hv] at h
              simp only [Option.some.injEq] at h
              exact absurd h (ne_insufficient _ _ (by decide))
          | some err =>
            rw [validateDelivery_loop_some hf hs hl hloop] at h ⊢
            simp only at h
            by_cases h400 : err.status = 400
            · rcases deliveryLoop_400 location delivery now _ db db1 err hloop h400 with
                ⟨_, _, _, prod, _, _, _, _, h5⟩
              rw [h5] at h ⊢
              simp only [Option.some.injEq] at h
              rw [h]
            · exfalso
              have hc := deliveryLoop_status location delivery now _ db db1 err hloop
              rcases hc with hc | hc
              · exact h400 hc
              · rw [hc] at h
                simp only [Option.some.injEq] at h
                exact absurd h (ne_insufficient _ _ (by decide))

/-! ### C4: validating a finished document -/

/-- C4, as stated, fails: a Cancelled receipt is validated like a draft one
(50 bolts and 7 nuts enter the stock, two moves are logged, the status
becomes Done), and a Cancelled delivery passes the status guard as well. -/
theorem cancelled_document_is_validated :
    (validateReceipt sampleCancelled 1 0).2 = { status := 200, error := none } ∧
      quantityOf (validateReceipt sampleCancelled 1 0).1.stocks 100 10 = 50 ∧
      (validateReceipt sampleCancelled 1 0).1.moves.length = 2 ∧
      (validateReceipt sampleCancelled 1 0).1.receipts.map (fun r => r.status)
        = [Status.Done] ∧
      (validateDelivery sampleCancelled 2 0).2
        = { status := 400, error := some "Insufficient stock for Bolt" } := by
  decide

/-- C4, amended: for every Receipt or Delivery document whose status is Done,
validate answers 400 "Already validated" and leaves the whole database (stock
quantities, StockMove log, document status) unchanged. -/
theorem validate_done_unchanged (db : Db) (id now : Nat) :
    (∀ r, Receipt.findById db.receipts id = some r → r.status = Status.Done →
        validateReceipt db id now
          = (db, { status := 400, error := some "Already validated" })) ∧
      (∀ d, Delivery.findById db.deliveries id = some d → d.status = Status.Done →
        validateDelivery db id now
          = (db, { status := 400, error := some "Already validated" })) :=
  ⟨fun _ hf hs => validateReceipt_done hf hs, fun _ hf hs => validateDelivery_done hf hs⟩

/-- The amended C4 at the sample documents once Done. -/
theorem validate_done_unchanged_witness :
    validateReceipt sampleDone 1 7
        = (sampleDone, { status := 400, error := some "Already validated" }) ∧
      validateDelivery sampleDone 2 7
        = (sampleDone, { status := 400, error := some "Already validated" }) :=
  ⟨(validate_done_unchanged sampleDone 1 7).1 _ rfl rfl,
   (validate_done_unchanged sampleDone 2 7).2 _ rfl rfl⟩

/-! ### Successful validation -/

/-- A receipt loop left early answers 500. -/
theorem receiptLoop_status (location : Location) (receipt : Receipt) (now : Nat)
    (items : List PopulatedItem) (db db1 : Db) (err : Response)
    (h : receiptLoop location receipt now items db = (db1, some err)) :
    err.status = 500 := by
  induction items generalizing db with
  | nil => simp [receiptLoop_nil] at h
  | cons item rest ih =>
    rw [receiptLoop_cons] at h
    cases hp : item.product with
    | none =>
      rw [hp] at h
      simp only [Prod.mk.injEq, Option.some.injEq] at h
      rw [← h.2]
    | some prod =>
      rw [hp] at h
      exact ih _ h

/-- A receipt validation answered with 200 passed the guards and ran its loop
to the end. -/
theorem validateReceipt_200_inv (db : Db) (id now : Nat)
    (h : (validateReceipt db id now).2.status = 200) :
    ∃ receipt location db1,
      Receipt.findById db.receipts id = some receipt ∧
      receipt.status ≠ Status.Done ∧
      Location.findOne db.locations receipt.to_ = some location ∧
      receiptLoop location receipt now (populate db.products receipt.products) db
        = (db1, none) ∧
      Receipt.validate receipt = true := by
  cases hf : Receipt.findById db.receipts id with
  | none => simp [validateReceipt_def, hf] at h
  | some receipt =>
    by_cases hs : receipt.status = Status.Done
    · rw [validateReceipt_done hf hs] at h
      simp at h
    · cases hl : Location.findOne db.locations receipt.to_ with
      | none => simp [validateReceipt_def, hf, hs, hl] at h
      | some location =>
        cases hloop : receiptLoop location receipt now
            (populate db.products receipt.products) db with
        | mk db1 r =>
          cases r with
          | none =>
            cases hv : Receipt.validate receipt with
            | true => exact ⟨receipt, location, db1, rfl, hs, hl, hloop, hv⟩
            | false =>
              rw [validateReceipt_loop_invalid hf hs hl hloop hv] at h
              simp at h
          | some err =>
            rw [validateReceipt_loop_some hf hs hl hloop] at h
            have := receiptLoop_status location receipt now _ db db1 err hloop
            simp only at h
            omega

/-- A delivery validation answered with 200 passed the guards and ran its
loop to the end. -/
theorem validateDelivery_200_inv (db : Db) (id now : Nat)
    (h : (validateDelivery db id now).2.status = 200) :
    ∃ delivery location db1,
      Delivery.findById db.deliveries id = some delivery ∧
      delivery.status ≠ Status.Done ∧
      Location.findOne db.locations delivery.from_ = some location ∧
      deliveryLoop location delivery now (populate db.products delivery.products) db
        = (db1, none) ∧
      Delivery.validate delivery = true := by
  cases hf : Delivery.findById db.deliveries id with
  | none => simp [validateDelivery_def, hf] at h
  | some delivery =>
    by_cases hs : delivery.status = Status.Done
    · rw [validateDelivery_done hf hs] at h
      simp at h
    · cases hl : Location.findOne db.locations delivery.from_ with
      | none => simp [validateDelivery_def, hf, hs, hl] at h
      | some location =>
        cases hloop : deliveryLoop location delivery now
            (populate db.products delivery.products) db with
        | mk db1 r =>
          cases r with
          | none =>
            cases hv : Delivery.validate delivery with
            | true => exact ⟨delivery, location, db1, rfl, hs, hl, hloop, hv⟩
            | false =>
              rw [validateDelivery_loop_invalid hf hs hl hloop hv] at h
              simp at h
          | some err =>
            rw [validateDelivery_loop_some hf hs hl hloop] at h
            simp only at h
            rcases deliveryLoop_status location delivery now _ db db1 err hloop with hc | hc
            · omega
            · rw [hc] at h; simp at h

theorem receipt_findById_key {receipts : List Receipt} {id : Nat} {r : Receipt}
    (h : Receipt.findById receipts id = some r) : r._id = id := by
  unfold Receipt.findById at h
  simpa using List.find?_some h

theorem delivery_findById_key {deliveries : List Delivery} {id : Nat} {d : Delivery}
    (h : Delivery.findById deliveries id = some d) : d._id = id := by
  unfold Delivery.findById at h
  simpa using List.find?_some h

/-- After `receipt.save()` the document found under the id is the saved one. -/
theorem receipt_findById_save (receipts : List Receipt) (id : Nat) (r r1 : Receipt)
    (h : Receipt.findById receipts id = some r) (h1 : r1._id = id) :
    Receipt.findById (Receipt.save receipts r1) id = some r1 := by
  induction receipts with
  | nil => simp [Receipt.findById] at h
  | cons t ts ih =>
    unfold Receipt.findById at h ih ⊢
    rw [Receipt.save]
    by_cases ht : t._id = id
    · rw [if_pos (ht.trans h1.symm), List.find?_cons, decide_eq_true h1]
    · rw [if_neg (fun hc => ht (hc.trans h1)), List.find?_cons, decide_eq_false ht]
      rw [List.find?_cons, decide_eq_false ht] at h
      exact ih h

/-- After `delivery.save()` the document found under the id is the saved one. -/
theorem delivery_findById_save (deliveries : List Delivery) (id : Nat) (d d1 : Delivery)
    (h : Delivery.findById deliveries id = some d) (h1 : d1._id = id) :
    Delivery.findById (Delivery.save deliveries d1) id = some d1 := by
  induction deliveries with
  | nil => simp [Delivery.findById] at h
  | cons t ts ih =>
    unfold Delivery.findById at h ih ⊢
    rw [Delivery.save]
    by_cases ht : t._id = id
    · rw [if_pos (ht.trans h1.symm), List.find?_cons, decide_eq_true h1]
    · rw [if_neg (fun hc => ht (hc.trans h1)), List.find?_cons, decide_eq_false ht]
      rw [List.find?_cons, decide_eq_false ht] at h
      exact ih h

/-- The moves of a completed receipt loop, read against the line items. -/
theorem receipt_moves_lines (location : Location) (receipt : Receipt) (now : Nat)
    (products : List Product) (items : List LineItem) (ms : List StockMove)
    (h : List.Forall₂ (fun it m => ∃ prod, it.product = some prod ∧
      m = receiptMove location receipt now prod it.quantity) (populate products items) ms) :
    List.Forall₂ (fun li m => m.product = li.product ∧ m.quantity = li.quantity ∧
      m.type = MoveType.Receipt ∧ m.fromLocation = none ∧
      m.toLocation = some location._id ∧ m.reference = receipt.reference) items ms := by
  unfold populate at h
  rw [List.forall₂_map_left_iff] at h
  refine h.imp ?_
  rintro li m ⟨prod, hprod, rfl⟩
  have hk : prod._id = li.product := by simpa using List.find?_some hprod
  exact ⟨hk, rfl, rfl, rfl, rfl, rfl⟩

/-- The moves of a completed delivery loop, read against the line items. -/
theorem delivery_moves_lines (location : Location) (delivery : Delivery) (now : Nat)
    (products : List Product) (items : List LineItem) (ms : List StockMove)
    (h : List.Forall₂ (fun it m => ∃ prod, it.product = some prod ∧
      m = deliveryMove location delivery now prod it.quantity) (populate products items) ms) :
    List.Forall₂ (fun li m => m.product = li.product ∧ m.quantity = -li.quantity ∧
      m.type = MoveType.Delivery ∧ m.fromLocation = some location._id ∧
      m.toLocation = none ∧ m.reference = delivery.reference) items ms := by
  unfold populate at h
  rw [List.forall₂_map_left_iff] at h
  refine h.imp ?_
  rintro li m ⟨prod, hprod, rfl⟩
  have hk : prod._id = li.product := by simpa using List.find?_some hprod
  exact ⟨hk, rfl, rfl, rfl, rfl, rfl⟩

/-! ### C3: a failed delivery validation -/

/-- The populated items split where the line items split. -/
theorem populate_split (products : List Product) (lines : List LineItem)
    (pre : List PopulatedItem) (item : PopulatedItem) (rest : List PopulatedItem)
    (h : populate products lines = pre ++ item :: rest) :
    ∃ earlier line later, lines = earlier ++ line :: later ∧
      populate products earlier = pre ∧
      item.product = products.find? (fun p => decide (p._id = line.product)) ∧
      item.quantity = line.quantity := by
  unfold populate at h
  rw [List.map_eq_append_iff] at h
  rcases h with ⟨l1, l2, hl, h1, h2⟩
  rw [List.map_eq_cons_iff] at h2
  rcases h2 with ⟨line, later, hl2, hitem, _⟩
  refine ⟨l1, line, later, ?_, h1, ?_, ?_⟩
  · rw [hl, hl2]
  · rw [← hitem]
  · rw [← hitem]

/-- A delivery loop that runs to its end leaves, at its location, what the
lines leave when subtracted one after another, and touches no other location. -/
theorem deliveryLoop_none_stocks (location : Location) (delivery : Delivery) (now : Nat)
    (products : List Product) (lines : List LineItem) (db db1 : Db)
    (h : deliveryLoop location delivery now (populate products lines) db = (db1, none)) :
    ∀ p l, quantityOf db1.stocks p l =
      if l = location._id then afterLines lines p (quantityOf db.stocks p l)
      else quantityOf db.stocks p l := by
  induction lines generalizing db with
  | nil =>
    intro p l
    simp only [populate, List.map_nil, deliveryLoop_nil, Prod.mk.injEq, and_true] at h
    rw [h]
    simp [afterLines]
  | cons li rest ih =>
    intro p l
    have hpop : populate products (li :: rest) =
        { product := products.find? (fun p => decide (p._id = li.product)),
          quantity := li.quantity } :: populate products rest := rfl
    rw [hpop, deliveryLoop_cons] at h
    cases hp : products.find? (fun p => decide (p._id = li.product)) with
    | none => rw [hp] at h; simp at h
    | some prod =>
      have hk : prod._id = li.product := by simpa using List.find?_some hp
      rw [hp] at h
      simp only at h
      cases hf : Stock.findOne db.stocks prod._id location._id with
      | none => rw [hf] at h; simp at h
      | some stock =>
        rw [hf] at h
        simp only at h
        split at h
        · simp at h
        · rw [ih _ h p l]
          simp only [quantityOf_save, (findOne_key hf).1, (findOne_key hf).2, hk]
          have hq := quantityOf_of_findOne hf
          rw [hk] at hq
          by_cases hl : l = location._id
          · simp only [hl, if_true, afterLines, List.foldl_cons]
            by_cases hpp : li.product = p
            · simp only [hpp, and_self, if_true]
              rw [← hq, hpp]
            · simp only [hpp, false_and, if_false]
          · have hl2 : ¬ (li.product = p ∧ location._id = l) := fun hc => hl hc.2.symm
            simp only [hl, if_false, hl2]

/-- C3, as stated, fails: with 50 bolts and 7 nuts in stock, validating the
delivery of 20 bolts then 9 nuts is answered with insufficient stock for the
nuts, and the decrement of the bolts (50 to 30) and its move are retained. -/
theorem delivery_failure_keeps_first_line :
    (validateDelivery sampleStocked 2 0).2
        = { status := 400, error := some "Insufficient stock for Nut" } ∧
      quantityOf sampleStocked.stocks 100 10 = 50 ∧
      quantityOf (validateDelivery sampleStocked 2 0).1.stocks 100 10 = 30 ∧
      sampleStocked.moves.length = 2 ∧
      (validateDelivery sampleStocked 2 0).1.moves.length = 3 := by
  decide

/-- C3, amended: when delivery validation fails because a line item has
insufficient stock, the line items split into the earlier lines, the failing
line and the later lines, and after the call: the deliveries collection (so
the document status) is unchanged; the log is the log before followed by one
move per earlier line, in order, of type Delivery with the product of the
line, its quantity negated, fromLocation the resolved location and the
reference of the document; the quantity of every product at the resolved
location is the quantity before with the quantity of each earlier line of
that product subtracted in turn, and no other location changes; the failing
line has no Stock record or less than its quantity in that state; when there
is no earlier line the whole database is unchanged. -/
theorem delivery_failure_retains_earlier_lines (db : Db) (id now : Nat) (name : String)
    (h : (validateDelivery db id now).2.error = some ("Insufficient stock for " ++ name)) :
    ∃ delivery location earlier line later ms,
      Delivery.findById db.deliveries id = some delivery ∧
      Location.findOne db.locations delivery.from_ = some location ∧
      delivery.products = earlier ++ line :: later ∧
      (validateDelivery db id now).1.deliveries = db.deliveries ∧
      (validateDelivery db id now).1.moves = db.moves ++ ms ∧
      List.Forall₂ (fun li m => m.product = li.product ∧ m.quantity = -li.quantity ∧
        m.type = MoveType.Delivery ∧ m.fromLocation = some location._id ∧
        m.toLocation = none ∧ m.reference = delivery.reference) earlier ms ∧
      (∀ p l, quantityOf (validateDelivery db id now).1.stocks p l =
        if l = location._id then afterLines earlier p (quantityOf db.stocks p l)
        else quantityOf db.stocks p l) ∧
      (Stock.findOne (validateDelivery db id now).1.stocks line.product location._id = none ∨
        quantityOf (validateDelivery db id now).1.stocks line.product location._id
          < line.quantity) ∧
      (earlier = [] → (validateDelivery db id now).1 = db) := by
  rcases validateDelivery_insufficient_inv db id now name h with
    ⟨delivery, location, hf, _, hl, hloop⟩
  have hc := deliveryLoop_catalog location delivery now
    (populate db.products delivery.products) db
  rw [hloop] at hc
  rcases deliveryLoop_400 location delivery now _ db _ _ hloop rfl with
    ⟨pre, item, rest, prod, h1, h2, h3, h4, _⟩
  rcases populate_split db.products delivery.products pre item rest h1 with
    ⟨earlier, line, later, hsplit, hpre, hprod, hqty⟩
  rw [← hpre] at h2
  rcases deliveryLoop_none_moves location delivery now _ db _ h2 with ⟨ms, h5, h6⟩
  have hlines := delivery_moves_lines location delivery now db.products earlier ms h6
  have hk : prod._id = line.product := by
    rw [h3] at hprod
    simpa using List.find?_some hprod.symm
  rw [hk, hqty] at h4
  refine ⟨delivery, location, earlier, line, later, ms, hf, hl, hsplit, hc.2.2.2, h5, hlines,
    deliveryLoop_none_stocks location delivery now db.products earlier db _ h2, h4, ?_⟩
  intro he
  rw [he] at h2
  simp only [populate, List.map_nil, deliveryLoop_nil, Prod.mk.injEq, and_true] at h2
  exact h2.symm

/-- The amended C3 at the sample delivery (20 bolts, then 9 nuts, with 50
bolts and 7 nuts in stock): the theorem gives the bolts left at location 10 as
the 50 bolts before with the 20 of the first line subtracted, that is 30. -/
theorem delivery_failure_retains_earlier_lines_witness :
    (validateDelivery sampleStocked 2 0).2.error = some ("Insufficient stock for " ++ "Nut") ∧
      quantityOf sampleStocked.stocks 100 10 = 50 ∧
      quantityOf (validateDelivery sampleStocked 2 0).1.stocks 100 10 = 30 ∧
      (validateDelivery sampleStocked 2 0).1.moves.length = sampleStocked.moves.length + 1 ∧
      quantityOf (validateDelivery sampleStocked 2 0).1.stocks 100 10
        = quantityOf sampleStocked.stocks 100 10 - 20 := by
  refine ⟨by decide, by decide, by decide, by decide, ?_⟩
  obtain ⟨delivery, location, earlier, line, later, ms, hf, hl, hsplit, _, hm, hfa, hq, _, _⟩ :=
    delivery_failure_retains_earlier_lines sampleStocked 2 0 "Nut" (by decide)
  have hd : delivery = sampleDelivery := by
    have h2 : Delivery.findById sampleStocked.deliveries 2 = some sampleDelivery := by decide
    rw [h2] at hf
    exact (Option.some.inj hf).symm
  subst hd
  have hloc : location = { _id := 10, warehouse := 1 } := by
    have h2 : Location.findOne sampleStocked.locations sampleDelivery.from_
        = some { _id := 10, warehouse := 1 } := by decide
    rw [h2] at hl
    exact (Option.some.inj hl).symm
  subst hloc
  have hlen : earlier.length = 1 := by
    have h3 : (validateDelivery sampleStocked 2 0).1.moves.length = 3 := by decide
    have h4 : sampleStocked.moves.length = 2 := by decide
    rw [hm, List.length_append, h4] at h3
    rw [hfa.length_eq]
    omega
  have he : earlier = [{ product := 100, quantity := 20 }] := by
    match earlier, hlen, hsplit with
    | [x], _, hs =>
      simp only [sampleDelivery, List.singleton_append, List.cons.injEq] at hs
      rw [hs.1]
  rw [hq 100 10, he]
  simp [afterLines]

/-! ### C5: validation is applied at most once -/

/-- C5: for every Receipt or Delivery document that is not Done (so for every
Draft, Waiting or Ready one) and every state in which a first validate call
succeeds (status 200), that call stores the document with status Done and
appends exactly one StockMove per line item, in line order, with the product
of the line and its quantity (negated for a delivery); a second validate call
on the same document, at any later clock, is answered 400 "Already validated"
and leaves the whole database, stock quantities and StockMove log included,
as the first call left it. -/
theorem validate_at_most_once (db : Db) (id now later : Nat) :
    (∀ r, Receipt.findById db.receipts id = some r → r.status ≠ Status.Done →
      (validateReceipt db id now).2.status = 200 →
        Receipt.findById (validateReceipt db id now).1.receipts id
            = some { r with status := Status.Done } ∧
          (∃ location ms,
            Location.findOne db.locations r.to_ = some location ∧
            (validateReceipt db id now).1.moves = db.moves ++ ms ∧
            ms.length = r.products.length ∧
            List.Forall₂ (fun li m => m.product = li.product ∧ m.quantity = li.quantity ∧
              m.type = MoveType.Receipt ∧ m.fromLocation = none ∧
              m.toLocation = some location._id ∧ m.reference = r.reference)
              r.products ms) ∧
          validateReceipt (validateReceipt db id now).1 id later
            = ((validateReceipt db id now).1,
               { status := 400, error := some "Already validated" })) ∧
      (∀ d, Delivery.findById db.deliveries id = some d → d.status ≠ Status.Done →
        (validateDelivery db id now).2.status = 200 →
          Delivery.findById (validateDelivery db id now).1.deliveries id
              = some { d with status := Status.Done } ∧
            (∃ location ms,
              Location.findOne db.locations d.from_ = some location ∧
              (validateDelivery db id now).1.moves = db.moves ++ ms ∧
              ms.length = d.products.length ∧
              List.Forall₂ (fun li m => m.product = li.product ∧ m.quantity = -li.quantity ∧
                m.type = MoveType.Delivery ∧ m.fromLocation = some location._id ∧
                m.toLocation = none ∧ m.reference = d.reference)
                d.products ms) ∧
            validateDelivery (validateDelivery db id now).1 id later
              = ((validateDelivery db id now).1,
                 { status := 400, error := some "Already validated" })) := by
  constructor
  · intro r hr _ h200
    rcases validateReceipt_200_inv db id now h200 with
      ⟨r1, location, db1, hf, hs, hl, hloop, hv⟩
    have hrr : r1 = r := Option.some.inj (hf.symm.trans hr)
    subst hrr
    have hc := receiptLoop_catalog location r1 now (populate db.products r1.products) db
    rw [hloop] at hc
    rcases receiptLoop_none_moves location r1 now _ db db1 hloop with ⟨ms, hm1, hm2⟩
    have hlines := receipt_moves_lines location r1 now db.products r1.products ms hm2
    have hk : r1._id = id := receipt_findById_key hf
    have hfound : Receipt.findById (validateReceipt db id now).1.receipts id
        = some { r1 with status := Status.Done } := by
      rw [validateReceipt_loop_none hf hs hl hloop hv]
      simp only
      rw [hc.2.2.1]
      exact receipt_findById_save db.receipts id r1 _ hf hk
    refine ⟨hfound, ⟨location, ms, hl, ?_, hlines.length_eq.symm, hlines⟩, ?_⟩
    · rw [validateReceipt_loop_none hf hs hl hloop hv]; exact hm1
    · exact validateReceipt_done hfound rfl
  · intro d hd _ h200
    rcases validateDelivery_200_inv db id now h200 with
      ⟨d1, location, db1, hf, hs, hl, hloop, hv⟩
    have hdd : d1 = d := Option.some.inj (hf.symm.trans hd)
    subst hdd
    have hc := deliveryLoop_catalog location d1 now (populate db.products d1.products) db
    rw [hloop] at hc
    rcases deliveryLoop_none_moves location d1 now _ db db1 hloop with ⟨ms, hm1, hm2⟩
    have hlines := delivery_moves_lines location d1 now db.products d1.products ms hm2
    have hk : d1._id = id := delivery_findById_key hf
    have hfound : Delivery.findById (validateDelivery db id now).1.deliveries id
        = some { d1 with status := Status.Done } := by
      rw [validateDelivery_loop_none hf hs hl hloop hv]
      simp only
      rw [hc.2.2.2]
      exact delivery_findById_save db.deliveries id d1 _ hf hk
    refine ⟨hfound, ⟨location, ms, hl, ?_, hlines.length_eq.symm, hlines⟩, ?_⟩
    · rw [validateDelivery_loop_none hf hs hl hloop hv]; exact hm1
    · exact validateDelivery_done hfound rfl

/-- C5 at the sample documents: the sample receipt is validated once (two
moves, status Done) and refused the second time; so is a delivery of the
whole stock. -/
theorem validate_at_most_once_witness :
    (validateReceipt sampleDb 1 0).2.status = 200 ∧
      validateReceipt (validateReceipt sampleDb 1 0).1 1 5
        = ((validateReceipt sampleDb 1 0).1,
           { status := 400, error := some "Already validated" }) ∧
      (validateReceipt sampleDb 1 0).1.moves.length = 2 :=
  ⟨by decide,
   ((validate_at_most_once sampleDb 1 0 5).1 sampleReceipt rfl (by decide) (by decide)).2.2,
   by decide⟩

/-! ### C6: a single-line delivery -/

/-- C6: for a delivery document that passes the guards of the route (found,
not Done, warehouse with a location `location`) and has the single line
(product `pid`, quantity `q > 0`) of an existing product, with current
quantity `c` of (`pid`, `location`) (0 when no Stock record exists):
validation is answered with the insufficient-stock error exactly when `c < q`,
and then the database is unchanged (quantity still `c`, no move appended);
otherwise the quantity becomes `c - q` and exactly one StockMove of type
Delivery with fromLocation `location` and quantity `-q` is appended, and the
call is answered 200 when the document passes the schema validation of the
final `delivery.save()`, 500 when it does not. -/
theorem single_line_delivery (db : Db) (id now : Nat) (d : Delivery) (location : Location)
    (prod : Product) (pid : Nat) (q : Int)
    (hf : Delivery.findById db.deliveries id = some d) (hs : d.status ≠ Status.Done)
    (hl : Location.findOne db.locations d.from_ = some location)
    (hp : d.products = [{ product := pid, quantity := q }])
    (hprod : db.products.find? (fun p => decide (p._id = pid)) = some prod)
    (hq : 0 < q) :
    ((validateDelivery db id now).2
        = { status := 400, error := some ("Insufficient stock for " ++ prod.name) }
      ↔ quantityOf db.stocks pid location._id < q) ∧
    (quantityOf db.stocks pid location._id < q → (validateDelivery db id now).1 = db) ∧
    (¬ quantityOf db.stocks pid location._id < q →
      (Delivery.validate d = true →
        (validateDelivery db id now).2 = { status := 200, error := none }) ∧
      (Delivery.validate d = false →
        (validateDelivery db id now).2
          = { status := 500, error := some deliveryValidationError }) ∧
      quantityOf (validateDelivery db id now).1.stocks pid location._id
        = quantityOf db.stocks pid location._id - q ∧
      (validateDelivery db id now).1.moves = db.moves ++
        [{ product := pid, quantity := -q, type := MoveType.Delivery,
           fromLocation := some location._id, toLocation := none,
           reference := d.reference, date := d.scheduledDate.getD now }]) := by
  have hk : prod._id = pid := by simpa using List.find?_some hprod
  have hpop : populate db.products d.products = [{ product := some prod, quantity := q }] := by
    rw [hp]; simp only [populate, List.map_cons, List.map_nil, hprod]
  cases hfind : Stock.findOne db.stocks pid location._id with
  | none =>
    have hc : quantityOf db.stocks pid location._id = 0 := by
      unfold quantityOf; rw [hfind]
    have hloop : deliveryLoop location d now (populate db.products d.products) db
        = (db, some { status := 400, error := some ("Insufficient stock for " ++ prod.name) }) := by
      rw [hpop]; simp only [deliveryLoop_cons, deliveryLoop_nil, hk, hfind]
    rw [validateDelivery_loop_some hf hs hl hloop, hc]
    exact ⟨⟨fun _ => hq, fun _ => rfl⟩, fun _ => rfl, fun h => absurd hq h⟩
  | some stock =>
    have hc : quantityOf db.stocks pid location._id = stock.quantity :=
      quantityOf_of_findOne hfind
    by_cases hlt : stock.quantity < q
    · have hloop : deliveryLoop location d now (populate db.products d.products) db =
          (db, some { status := 400, error := some ("Insufficient stock for " ++ prod.name) }) := by
        rw [hpop]; simp only [deliveryLoop_cons, deliveryLoop_nil, hk, hfind, hlt, if_true]
      rw [validateDelivery_loop_some hf hs hl hloop, hc]
      exact ⟨⟨fun _ => hlt, fun _ => rfl⟩, fun _ => rfl, fun h => absurd hlt h⟩
    · have hloop : deliveryLoop location d now (populate db.products d.products) db
          = ({ db with
                stocks := Stock.save db.stocks { stock with quantity := stock.quantity - q },
                moves := StockMove.create db.moves (deliveryMove location d now prod q) },
             none) := by
        rw [hpop]; simp only [deliveryLoop_cons, deliveryLoop_nil, hk, hfind, hlt, if_false]
      cases hv : Delivery.validate d with
      | true =>
        rw [validateDelivery_loop_none hf hs hl hloop hv, hc]
        refine ⟨⟨fun h => ?_, fun h => absurd h hlt⟩, fun h => absurd h hlt,
          fun _ => ⟨fun _ => rfl, fun hc2 => by simp at hc2, ?_, ?_⟩⟩
        · simp at h
        · simp only [quantityOf_save, (findOne_key hfind).1, (findOne_key hfind).2, and_self,
            if_true]
        · simp only [StockMove.create, deliveryMove, hk]
      | false =>
        rw [validateDelivery_loop_invalid hf hs hl hloop hv, hc]
        refine ⟨⟨fun h => ?_, fun h => absurd h hlt⟩, fun h => absurd h hlt,
          fun _ => ⟨fun hc2 => by simp at hc2, fun _ => rfl, ?_, ?_⟩⟩
        · simp at h
        · simp only [quantityOf_save, (findOne_key hfind).1, (findOne_key hfind).2, and_self,
            if_true]
        · simp only [StockMove.create, deliveryMove, hk]

/-- C6 at the sample single-line delivery: 20 bolts leave a stock of 50. -/
theorem single_line_delivery_witness :
    quantityOf sampleSingle.stocks 100 10 = 50 ∧
      (validateDelivery sampleSingle 3 0).2 = { status := 200, error := none } ∧
      quantityOf (validateDelivery sampleSingle 3 0).1.stocks 100 10
        = quantityOf sampleSingle.stocks 100 10 - 20 :=
  ⟨by decide,
   ((single_line_delivery sampleSingle 3 0 sampleSingleDelivery { _id := 10, warehouse := 1 }
      { _id := 100, name := "Bolt" } 100 20 rfl (by decide) rfl rfl rfl (by decide)).2.2
      (by decide)).1 (by decide),
   ((single_line_delivery sampleSingle 3 0 sampleSingleDelivery { _id := 10, warehouse := 1 }
      { _id := 100, name := "Bolt" } 100 20 rfl (by decide) rfl rfl rfl (by decide)).2.2
      (by decide)).2.2.1⟩

/-! ### C7, C8: transfers -/

theorem save_filter (f : Stock → Bool) (stocks : List Stock) (s : Stock)
    (hf : ∀ t, t.product = s.product → t.location = s.location → f t = false) :
    (Stock.save stocks s).filter f = stocks.filter f := by
  induction stocks with
  | nil => simp [Stock.save, hf s rfl rfl]
  | cons t ts ih =>
    rw [Stock.save]
    by_cases ht : t.product = s.product ∧ t.location = s.location
    · rw [if_pos ht, List.filter_cons, List.filter_cons, hf s rfl rfl, hf t ht.1 ht.2]
      simp
    · rw [if_neg ht, List.filter_cons, List.filter_cons, ih]

/-- What an accepted transfer leaves: the source record decremented, the
destination record (found after the source was saved, or new with quantity 0)
incremented, one Internal move appended. -/
theorem transfer_accepted (db : Db) (p a b : Nat) (q : Int) (now : Nat) (sourceStock : Stock)
    (hf : Stock.findOne db.stocks p a = some sourceStock)
    (hge : ¬ sourceStock.quantity < q) :
    transfer db p a b q now =
      ({ db with
          stocks := Stock.save
            (Stock.save db.stocks { sourceStock with quantity := sourceStock.quantity - q })
            { (Stock.findOne
                (Stock.save db.stocks { sourceStock with quantity := sourceStock.quantity - q })
                p b).getD { product := p, location := b, quantity := 0 } with
              quantity := ((Stock.findOne
                (Stock.save db.stocks { sourceStock with quantity := sourceStock.quantity - q })
                p b).getD { product := p, location := b, quantity := 0 }).quantity + q },
          moves := db.moves ++
            [{ product := p, quantity := q, type := MoveType.Internal,
               fromLocation := some a, toLocation := some b,
               reference := "INT/" ++ toString now, date := now }] },
       { status := 200, error := none }) := by
  simp only [transfer_def, hf, hge, if_false, StockMove.create]

/-- C7: for every product `p`, distinct locations `a` and `b` and quantity
`q > 0` with the stock of (`p`, `a`) at least `q`, the transfer succeeds,
decreases the quantity of (`p`, `a`) by `q`, increases the quantity of
(`p`, `b`) by `q` (a record exists afterwards, created from 0 when absent),
leaves the record of every other (product, location) pair as it was, and
appends exactly one StockMove of type Internal with fromLocation `a`,
toLocation `b` and quantity `q`. -/
theorem transfer_moves_stock (db : Db) (p a b : Nat) (q : Int) (now : Nat)
    (hab : a ≠ b) (hq : 0 < q) (hc : q ≤ quantityOf db.stocks p a) :
    (transfer db p a b q now).2 = { status := 200, error := none } ∧
    quantityOf (transfer db p a b q now).1.stocks p a = quantityOf db.stocks p a - q ∧
    quantityOf (transfer db p a b q now).1.stocks p b = quantityOf db.stocks p b + q ∧
    (Stock.findOne (transfer db p a b q now).1.stocks p b).isSome = true ∧
    (∀ p1 l1, ¬ (p1 = p ∧ (l1 = a ∨ l1 = b)) →
      Stock.findOne (transfer db p a b q now).1.stocks p1 l1
        = Stock.findOne db.stocks p1 l1) ∧
    (transfer db p a b q now).1.stocks.filter
        (fun s => !decide (s.product = p ∧ (s.location = a ∨ s.location = b)))
      = db.stocks.filter
        (fun s => !decide (s.product = p ∧ (s.location = a ∨ s.location = b))) ∧
    (transfer db p a b q now).1.moves = db.moves ++
      [{ product := p, quantity := q, type := MoveType.Internal,
         fromLocation := some a, toLocation := some b,
         reference := "INT/" ++ toString now, date := now }] := by
  cases hf : Stock.findOne db.stocks p a with
  | none =>
    have h0 : quantityOf db.stocks p a = 0 := by unfold quantityOf; rw [hf]
    omega
  | some sourceStock =>
    have hsq := quantityOf_of_findOne hf
    have hge : ¬ sourceStock.quantity < q := by omega
    have hka := findOne_key hf
    rw [transfer_accepted db p a b q now sourceStock hf hge]
    have hba : b ≠ a := fun h => hab h.symm
    refine ⟨rfl, ?_, ?_, ?_, ?_, ?_, rfl⟩
    · simp only [quantityOf_save, getD_product, getD_location, hka.1, hka.2, hba, and_false,
        and_self, if_false, if_true, hsq]
    · simp only [quantityOf_save, getD_product, getD_location, getD_quantity, hka.1, hka.2,
        and_self, if_true, hab, and_false, if_false]
    · rw [findOne_save]
      simp only [getD_product, getD_location, and_self, if_true, Option.isSome_some]
    · intro p1 l1 hne
      have h1 : ¬ (p = p1 ∧ b = l1) := fun h => hne ⟨h.1.symm, Or.inr h.2.symm⟩
      have h2 : ¬ (p = p1 ∧ a = l1) := fun h => hne ⟨h.1.symm, Or.inl h.2.symm⟩
      rw [findOne_save]
      simp only [getD_product, getD_location, h1, if_false]
      rw [findOne_save]
      simp only [hka.1, hka.2, h2, if_false]
    · rw [save_filter, save_filter]
      · intro t h1 h2
        simp only at h1 h2
        simp [h1, h2, hka.1, hka.2]
      · intro t h1 h2
        simp only [getD_product, getD_location] at h1 h2
        simp [h1, h2]

/-- C7 at the stocked sample database: 10 of the 50 bolts move from location
10 to location 20, which had no record. -/
theorem transfer_moves_stock_witness :
    quantityOf sampleStocked.stocks 100 10 = 50 ∧
      Stock.findOne sampleStocked.stocks 100 20 = none ∧
      quantityOf (transfer sampleStocked 100 10 20 10 0).1.stocks 100 10
        = quantityOf sampleStocked.stocks 100 10 - 10 ∧
      quantityOf (transfer sampleStocked 100 10 20 10 0).1.stocks 100 20
        = quantityOf sampleStocked.stocks 100 20 + 10 :=
  ⟨by decide, by decide,
   (transfer_moves_stock sampleStocked 100 10 20 10 0 (by decide) (by decide) (by decide)).2.1,
   (transfer_moves_stock sampleStocked 100 10 20 10 0 (by decide) (by decide)
      (by decide)).2.2.1⟩

/-- C8, as stated, fails: with 50 bolts at location 10, a transfer of -5 to
location 20 is accepted (the source rises to 55, the destination falls to -5,
a move is logged), and a transfer of 5 from location 10 to itself is accepted
and logged as well. -/
theorem transfer_accepts_invalid_input :
    quantityOf sampleStocked.stocks 100 10 = 50 ∧
      (transferWith toNumber sampleStocked 100 10 (IdField.id 20) (-5) 0).2
        = { status := 200, error := none } ∧
      quantityOf (transferWith toNumber sampleStocked 100 10 (IdField.id 20) (-5) 0).1.stocks
        100 10 = 55 ∧
      quantityOf (transferWith toNumber sampleStocked 100 10 (IdField.id 20) (-5) 0).1.stocks
        100 20 = -5 ∧
      (transferWith toNumber sampleStocked 100 10 (IdField.id 20) (-5) 0).1.moves.length
        = sampleStocked.moves.length + 1 ∧
      (transferWith toNumber sampleStocked 100 10 (IdField.id 10) 5 0).2
        = { status := 200, error := none } ∧
      (transferWith toNumber sampleStocked 100 10 (IdField.id 10) 5 0).1.moves.length
        = sampleStocked.moves.length + 1 := by
  decide

/-- C8, amended: for every transfer request in which fromLocation equals
toLocation or quantity is not greater than 0 (whatever the Number rounding
`num`, and whether `toLocation` is well formed or not), the transfer is
rejected with the insufficient-stock error (400) exactly when the pair
(product, fromLocation) has no Stock record or its quantity is less than the
requested quantity; a transfer rejected so leaves the whole database unchanged
(no Stock record changes, no StockMove is appended). -/
theorem transfer_rejected_iff (num : Int → Int) (db : Db) (p a : Nat) (b : IdField) (q : Int)
    (now : Nat) (_hdom : b = IdField.id a ∨ q ≤ 0) :
    ((transferWith num db p a b q now).2.status = 400 ↔
      (Stock.findOne db.stocks p a = none ∨ quantityOf db.stocks p a < q)) ∧
    ((transferWith num db p a b q now).2.status = 400 →
      transferWith num db p a b q now
        = (db, { status := 400, error := some "Insufficient stock at source location" })) := by
  cases hf : Stock.findOne db.stocks p a with
  | none =>
    have ht : transferWith num db p a b q now
        = (db, { status := 400, error := some "Insufficient stock at source location" }) := by
      simp only [transferWith, hf]
    rw [ht]
    exact ⟨⟨fun _ => Or.inl rfl, fun _ => rfl⟩, fun _ => rfl⟩
  | some sourceStock =>
    have hq := quantityOf_of_findOne hf
    by_cases hlt : sourceStock.quantity < q
    · have ht : transferWith num db p a b q now
          = (db, { status := 400, error := some "Insufficient stock at source location" }) := by
        simp only [transferWith, hf, hlt, if_true]
      rw [ht, hq]
      exact ⟨⟨fun _ => Or.inr hlt, fun _ => rfl⟩, fun _ => rfl⟩
    · have hne : (transferWith num db p a b q now).2.status ≠ 400 := by
        cases b <;> simp [transferWith, hf, hlt]
      rw [hq]
      refine ⟨⟨fun h4 => absurd h4 hne, fun h4 => ?_⟩, fun h4 => absurd h4 hne⟩
      rcases h4 with h5 | h5
      · exact absurd h5 (by simp)
      · exact absurd h5 hlt

/-- The amended C8 at the stocked sample database (50 bolts at location 10): a
transfer of 60 bolts from location 10 to itself is rejected and nothing
changes; a transfer of 5 bolts from location 10 to itself is not rejected. -/
theorem transfer_rejected_iff_witness :
    transferWith toNumber sampleStocked 100 10 (IdField.id 10) 60 0
        = (sampleStocked,
           { status := 400, error := some "Insufficient stock at source location" }) ∧
      ¬ (transferWith toNumber sampleStocked 100 10 (IdField.id 10) 5 0).2.status = 400 :=
  ⟨(transfer_rejected_iff toNumber sampleStocked 100 10 (IdField.id 10) 60 0
      (Or.inl rfl)).2 (by decide),
   fun h => absurd
     ((transfer_rejected_iff toNumber sampleStocked 100 10 (IdField.id 10) 5 0
       (Or.inl rfl)).1.1 h)
     (by decide)⟩

/-! ### C9, C10: adjustments -/

/-- An adjustment with type "Set": the record takes the given value, the
move carries the difference to the old quantity. No value is refused. -/
theorem adjustment_set (db : Db) (p l : Nat) (v : Int) (now : Nat) :
    (adjustment db p l v "Set" now).2 = { status := 200, error := none } ∧
    quantityOf (adjustment db p l v "Set" now).1.stocks p l = v ∧
    (adjustment db p l v "Set" now).1.moves = db.moves ++
      [{ product := p, quantity := v - quantityOf db.stocks p l, type := MoveType.Adjustment,
         fromLocation := none, toLocation := some l,
         reference := "ADJ/" ++ toString now, date := now }] := by
  refine ⟨rfl, ?_, ?_⟩
  · simp only [adjustment_def, if_true, quantityOf_save, getD_product, getD_location, and_self]
  · simp only [adjustment_def, if_true, StockMove.create, getD_quantity]

/-- C9, as stated, fails: with 5 bolts at location 20, an adjustment with
mode Set and value -3 is answered 200, the quantity becomes -3 and one move
is appended. -/
theorem negative_set_is_accepted :
    quantityOf (run sampleDb sampleOps).stocks 100 20 = 5 ∧
      (adjustment (run sampleDb sampleOps) 100 20 (-3) "Set" 0).2
        = { status := 200, error := none } ∧
      quantityOf (adjustment (run sampleDb sampleOps) 100 20 (-3) "Set" 0).1.stocks 100 20
        = -3 ∧
      (adjustment (run sampleDb sampleOps) 100 20 (-3) "Set" 0).1.moves.length
        = (run sampleDb sampleOps).moves.length + 1 := by
  decide

/-- C9, amended: for every product, location and current quantity `c`, an
adjustment with mode Set and a value `v` below 0 is accepted (status 200, no
error): the stock quantity becomes `v` and exactly one StockMove of type
Adjustment with toLocation the location and quantity `v - c` is appended. -/
theorem negative_set_overwrites (db : Db) (p l : Nat) (v : Int) (now : Nat) (hv : v < 0) :
    (adjustment db p l v "Set" now).2 = { status := 200, error := none } ∧
    quantityOf (adjustment db p l v "Set" now).1.stocks p l = v ∧
    quantityOf (adjustment db p l v "Set" now).1.stocks p l < 0 ∧
    (adjustment db p l v "Set" now).1.moves = db.moves ++
      [{ product := p, quantity := v - quantityOf db.stocks p l, type := MoveType.Adjustment,
         fromLocation := none, toLocation := some l,
         reference := "ADJ/" ++ toString now, date := now }] :=
  ⟨(adjustment_set db p l v now).1, (adjustment_set db p l v now).2.1,
   by rw [(adjustment_set db p l v now).2.1]; exact hv, (adjustment_set db p l v now).2.2⟩

/-- The amended C9 at 5 bolts in stock and the value -3. -/
theorem negative_set_overwrites_witness :
    quantityOf (adjustment (run sampleDb sampleOps) 100 20 (-3) "Set" 0).1.stocks 100 20
      = -3 :=
  (negative_set_overwrites (run sampleDb sampleOps) 100 20 (-3) 0 (by decide)).2.1

/-- The route over any Number rounding `num`, type "Set": the record takes the
given value, the move carries the rounded difference to the old quantity. -/
theorem adjustmentWith_set (num : Int → Int) (db : Db) (p l : Nat) (v : Int) (now : Nat) :
    (adjustmentWith num db p l v "Set" now).2 = { status := 200, error := none } ∧
    quantityOf (adjustmentWith num db p l v "Set" now).1.stocks p l = v ∧
    (adjustmentWith num db p l v "Set" now).1.moves = db.moves ++
      [{ product := p, quantity := num (v - quantityOf db.stocks p l),
         type := MoveType.Adjustment, fromLocation := none, toLocation := some l,
         reference := "ADJ/" ++ toString now, date := now }] := by
  refine ⟨rfl, ?_, ?_⟩
  · simp only [adjustmentWith, if_true, quantityOf_save, getD_product, getD_location, and_self]
  · simp only [adjustmentWith, if_true, StockMove.create, getD_quantity]

/-- The route over any Number rounding `num`, any other type: the record takes
the rounded sum, the move carries the rounded difference of the new and the
old quantity. -/
theorem adjustmentWith_add (num : Int → Int) (db : Db) (p l : Nat) (v : Int) (t : String)
    (now : Nat) (ht : t ≠ "Set") :
    (adjustmentWith num db p l v t now).2 = { status := 200, error := none } ∧
    quantityOf (adjustmentWith num db p l v t now).1.stocks p l
      = num (quantityOf db.stocks p l + v) ∧
    (adjustmentWith num db p l v t now).1.moves = db.moves ++
      [{ product := p,
         quantity := num (num (quantityOf db.stocks p l + v) - quantityOf db.stocks p l),
         type := MoveType.Adjustment, fromLocation := none, toLocation := some l,
         reference := "ADJ/" ++ toString now, date := now }] := by
  refine ⟨rfl, ?_, ?_⟩
  · simp only [adjustmentWith, ht, if_false, quantityOf_save, getD_product, getD_location,
      getD_quantity, and_self, if_true]
  · simp only [adjustmentWith, ht, if_false, StockMove.create, getD_quantity]

/-- C10, as stated, fails: with `2 ^ 53` units in stock, an adjustment with
mode Add and value 1 leaves the quantity at `2 ^ 53` (the Number sum rounds),
not `2 ^ 53 + 1`, and appends a move of quantity 0, not 1. -/
theorem add_logs_rounded_difference :
    quantityOf sampleLarge.stocks 1 1 = 9007199254740992 ∧
      (adjustmentWith toNumber sampleLarge 1 1 1 "Add" 0).2
        = { status := 200, error := none } ∧
      quantityOf (adjustmentWith toNumber sampleLarge 1 1 1 "Add" 0).1.stocks 1 1
        = 9007199254740992 ∧
      (adjustmentWith toNumber sampleLarge 1 1 1 "Add" 0).1.moves.map (fun m => m.quantity)
        = [0] := by
  decide

/-- C10, amended: for every product `p`, location `l` with current quantity
`c` (0 when no Stock record exists) and every value `v ≥ 0` with
`|c| + v < 2 ^ 53` (integers small enough for the Number additions and
subtractions of the route to be exact): an adjustment with mode Set leaves the
quantity of (`p`, `l`) equal to `v` and appends exactly one StockMove of type
Adjustment with toLocation `l` and quantity `v - c`; an adjustment with mode
Add leaves the quantity equal to `c + v` and appends one Adjustment move with
toLocation `l` and quantity `v`. Both are answered 200. -/
theorem adjustment_sets_or_adds (db : Db) (p l : Nat) (v : Int) (now : Nat) (hv : 0 ≤ v)
    (hb : (quantityOf db.stocks p l).natAbs + v.natAbs < 2 ^ 53) :
    ((adjustmentWith toNumber db p l v "Set" now).2 = { status := 200, error := none } ∧
      quantityOf (adjustmentWith toNumber db p l v "Set" now).1.stocks p l = v ∧
      0 ≤ quantityOf (adjustmentWith toNumber db p l v "Set" now).1.stocks p l ∧
      (adjustmentWith toNumber db p l v "Set" now).1.moves = db.moves ++
        [{ product := p, quantity := v - quantityOf db.stocks p l,
           type := MoveType.Adjustment, fromLocation := none, toLocation := some l,
           reference := "ADJ/" ++ toString now, date := now }]) ∧
    ((adjustmentWith toNumber db p l v "Add" now).2 = { status := 200, error := none } ∧
      quantityOf (adjustmentWith toNumber db p l v "Add" now).1.stocks p l
        = quantityOf db.stocks p l + v ∧
      (adjustmentWith toNumber db p l v "Add" now).1.moves = db.moves ++
        [{ product := p, quantity := v, type := MoveType.Adjustment,
           fromLocation := none, toLocation := some l,
           reference := "ADJ/" ++ toString now, date := now }]) := by
  have h1 : toNumber (v - quantityOf db.stocks p l) = v - quantityOf db.stocks p l :=
    toNumber_of_lt _ (by omega)
  have h2 : toNumber (quantityOf db.stocks p l + v) = quantityOf db.stocks p l + v :=
    toNumber_of_lt _ (by omega)
  have h3 : toNumber (quantityOf db.stocks p l + v - quantityOf db.stocks p l) = v := by
    rw [add_sub_cancel_left]
    exact toNumber_of_lt _ (by omega)
  have hs := adjustmentWith_set toNumber db p l v now
  have ha := adjustmentWith_add toNumber db p l v "Add" now (by decide)
  rw [h1] at hs
  rw [h2, h3] at ha
  exact ⟨⟨hs.1, hs.2.1, by rw [hs.2.1]; exact hv, hs.2.2⟩, ha⟩

/-- The amended C10 at the sample run: the 5 bolts at location 20 are set to
12, the 20 bolts at location 10 get 4 more. -/
theorem adjustment_sets_or_adds_witness :
    quantityOf (run sampleDb sampleOps).stocks 100 10 = 20 ∧
      quantityOf (adjustmentWith toNumber (run sampleDb sampleOps) 100 20 12 "Set" 0).1.stocks
        100 20 = 12 ∧
      quantityOf (adjustmentWith toNumber (run sampleDb sampleOps) 100 10 4 "Add" 0).1.stocks
        100 10 = quantityOf (run sampleDb sampleOps).stocks 100 10 + 4 :=
  ⟨by decide,
   (adjustment_sets_or_adds (run sampleDb sampleOps) 100 20 12 0 (by decide)
     (by decide)).1.2.1,
   (adjustment_sets_or_adds (run sampleDb sampleOps) 100 10 4 0 (by decide)
     (by decide)).2.2.1⟩

/-! ### The dashboard aggregation -/

theorem groupVal_addToGroup (gs : List MonthlyData) (key : Nat) (i o : Int) (k : Nat) :
    groupVal (addToGroup gs key i o) k =
      if key = k then
        some (((groupVal gs k).getD (0, 0)).1 + i, ((groupVal gs k).getD (0, 0)).2 + o)
      else groupVal gs k := by
  induction gs with
  | nil =>
    by_cases h : key = k <;> simp [addToGroup, groupVal, h]
  | cons g gs ih =>
    unfold groupVal at ih ⊢
    rw [addToGroup]
    by_cases hg : g.month = key
    · rw [if_pos hg]
      by_cases h : key = k
      · have hgk : g.month = k := hg.trans h
        rw [if_pos h, List.find?_cons, List.find?_cons]
        simp [hgk]
      · have hgk : ¬ g.month = k := fun hc => h (hg.symm.trans hc)
        rw [if_neg h, List.find?_cons, List.find?_cons]
        simp [hgk]
    · rw [if_neg hg]
      by_cases hgk : g.month = k
      · have h : ¬ key = k := fun hc => hg (hgk.trans hc.symm)
        rw [if_neg h, List.find?_cons, List.find?_cons]
        simp [hgk]
      · rw [List.find?_cons, decide_eq_false hgk, ih, List.find?_cons, decide_eq_false hgk]

theorem inboundSum_cons (month : Nat → Nat) (m : StockMove) (docs : List StockMove) (k : Nat) :
    inboundSum month (m :: docs) k =
      (if month m.date = k then inboundOf m else 0) + inboundSum month docs k := by
  unfold inboundSum
  by_cases h : month m.date = k <;> simp [List.filter_cons, h]

theorem outboundSum_cons (month : Nat → Nat) (m : StockMove) (docs : List StockMove) (k : Nat) :
    outboundSum month (m :: docs) k =
      (if month m.date = k then outboundOf m else 0) + outboundSum month docs k := by
  unfold outboundSum
  by_cases h : month m.date = k <;> simp [List.filter_cons, h]

/-- The `$group` stage started from the groups `gs`: the group of month `k`
holds what it held plus the addends of the documents of month `k`; it exists
when it existed or such a document exists. -/
theorem groupVal_foldl (month : Nat → Nat) (docs : List StockMove) (gs : List MonthlyData)
    (k : Nat) :
    groupVal (docs.foldl
        (fun acc m => addToGroup acc (month m.date) (inboundOf m) (outboundOf m)) gs) k =
      if (groupVal gs k).isSome ∨ ∃ m ∈ docs, month m.date = k then
        some (((groupVal gs k).getD (0, 0)).1 + inboundSum month docs k,
              ((groupVal gs k).getD (0, 0)).2 + outboundSum month docs k)
      else none := by
  induction docs generalizing gs with
  | nil =>
    cases h : groupVal gs k with
    | none => simp [h]
    | some v => simp [h, inboundSum, outboundSum]
  | cons m rest ih =>
    rw [List.foldl_cons, ih, groupVal_addToGroup, inboundSum_cons, outboundSum_cons]
    by_cases hm : month m.date = k
    · simp only [hm, if_true, Option.isSome_some, true_or, Option.getD_some,
        List.mem_cons, exists_eq_or_imp, true_or, or_true]
      rw [add_assoc, add_assoc]
    · simp only [hm, if_false, List.mem_cons, exists_eq_or_imp, false_or, zero_add]

theorem addToGroup_keys (gs : List MonthlyData) (key : Nat) (i o : Int) :
    (addToGroup gs key i o).map (fun g => g.month) =
      if key ∈ gs.map (fun g => g.month) then gs.map (fun g => g.month)
      else gs.map (fun g => g.month) ++ [key] := by
  induction gs with
  | nil => simp [addToGroup]
  | cons g gs ih =>
    rw [addToGroup]
    by_cases hg : g.month = key
    · rw [if_pos hg]
      simp [hg]
    · rw [if_neg hg, List.map_cons, ih]
      have hne : ¬ key = g.month := fun hc => hg hc.symm
      by_cases hmem : key ∈ gs.map (fun g => g.month)
      · rw [if_pos hmem, if_pos (by rw [List.map_cons]; exact List.mem_cons_of_mem _ hmem)]
        rfl
      · rw [if_neg hmem, if_neg (by
          rw [List.map_cons]
          intro hc
          rcases List.mem_cons.1 hc with h1 | h1
          · exact hne h1
          · exact hmem h1)]
        rfl

theorem addToGroup_nodup (gs : List MonthlyData) (key : Nat) (i o : Int)
    (h : (gs.map (fun g => g.month)).Nodup) :
    ((addToGroup gs key i o).map (fun g => g.month)).Nodup := by
  rw [addToGroup_keys]
  by_cases hmem : key ∈ gs.map (fun g => g.month)
  · rw [if_pos hmem]; exact h
  · rw [if_neg hmem]
    exact List.Nodup.append h (List.nodup_singleton key)
      (by
        intro a ha hb
        rw [List.mem_singleton] at hb
        exact hmem (hb ▸ ha))

theorem groupStage_nodup_aux (month : Nat → Nat) (docs : List StockMove)
    (gs : List MonthlyData) (h : (gs.map (fun g => g.month)).Nodup) :
    ((docs.foldl (fun acc m => addToGroup acc (month m.date) (inboundOf m) (outboundOf m))
      gs).map (fun g => g.month)).Nodup := by
  induction docs generalizing gs with
  | nil => exact h
  | cons m rest ih => exact ih _ (addToGroup_nodup gs _ _ _ h)

/-- In a list of groups with distinct months, a group is the one found under
its month. -/
theorem groupVal_of_mem (gs : List MonthlyData) (g : MonthlyData)
    (hn : (gs.map (fun g => g.month)).Nodup) (hg : g ∈ gs) :
    groupVal gs g.month = some (g.inbound, g.outbound) := by
  induction gs with
  | nil => exact absurd hg (List.not_mem_nil _)
  | cons x xs ih =>
    unfold groupVal at ih ⊢
    rw [List.map_cons, List.nodup_cons] at hn
    rcases List.mem_cons.1 hg with h1 | h1
    · rw [h1, List.find?_cons]
      simp
    · have hne : ¬ x.month = g.month := by
        intro hc
        apply hn.1
        rw [hc]
        exact List.mem_map.2 ⟨g, h1, rfl⟩
      rw [List.find?_cons, decide_eq_false hne]
      exact ih hn.2 h1

theorem groupVal_none_of_not_mem (gs : List MonthlyData) (k : Nat)
    (h : groupVal gs k = none) : ∀ g ∈ gs, g.month ≠ k := by
  intro g hg hk
  unfold groupVal at h
  rw [Option.map_eq_none', List.find?_eq_none] at h
  have := h g hg
  simp [hk] at this

/-- The object filled by `forEach` holds nothing under a key no item carries. -/
theorem monthDataMap_foldl_none (items : List MonthlyData) (k : Nat)
    (map : Nat → Option (Int × Int)) (h : ∀ g ∈ items, g.month ≠ k) :
    items.foldl
      (fun map item => fun k =>
        if k = item.month then some (item.inbound, item.outbound) else map k) map k
      = map k := by
  induction items generalizing map with
  | nil => rfl
  | cons x xs ih =>
    rw [List.foldl_cons, ih _ (fun g hg => h g (List.mem_cons_of_mem _ hg))]
    have hx : ¬ k = x.month := fun hc => h x (List.mem_cons_self _ _) hc.symm
    simp only [hx, if_false]

/-- The object filled by `forEach`: under a key that some item carries, and
whose items all carry the value `v`, the map holds `v`. -/
theorem monthDataMap_foldl_some (items : List MonthlyData) (k : Nat) (v : Int × Int)
    (map : Nat → Option (Int × Int))
    (hall : ∀ g ∈ items, g.month = k → (g.inbound, g.outbound) = v)
    (hex : ∃ g ∈ items, g.month = k) :
    items.foldl
      (fun map item => fun k =>
        if k = item.month then some (item.inbound, item.outbound) else map k) map k
      = some v := by
  induction items generalizing map with
  | nil =>
    rcases hex with ⟨g, hg, _⟩
    exact absurd hg (List.not_mem_nil _)
  | cons x xs ih =>
    rw [List.foldl_cons]
    by_cases hxs : ∃ g ∈ xs, g.month = k
    · exact ih _ (fun g hg => hall g (List.mem_cons_of_mem _ hg)) hxs
    · have hx : x.month = k := by
        rcases hex with ⟨g, hg, hk⟩
        rcases List.mem_cons.1 hg with h1 | h1
        · rw [← h1]; exact hk
        · exact absurd ⟨g, h1, hk⟩ hxs
      rw [monthDataMap_foldl_none xs k _ (fun g hg hk => hxs ⟨g, hg, hk⟩)]
      simp only [hx, if_true]
      rw [hall x (List.mem_cons_self _ _) hx]

/-- What `monthDataMap` holds under a month number: the two sums over the
matched documents of that month when there is such a document, nothing
otherwise. -/
theorem monthDataMap_monthlyData (month : Nat → Nat) (moves : List StockMove) (k : Nat) :
    monthDataMap (monthlyData month moves) k =
      if ∃ m ∈ matchStage moves, month m.date = k then
        some (inboundSum month (matchStage moves) k, outboundSum month (matchStage moves) k)
      else none := by
  have hval := groupVal_foldl month (matchStage moves) [] k
  have hn := groupStage_nodup_aux month (matchStage moves) [] List.nodup_nil
  have h0 : groupVal [] k = none := rfl
  rw [h0] at hval
  simp only [Option.isSome_none, Bool.false_eq_true, false_or, Option.getD_none,
    zero_add] at hval
  unfold monthDataMap monthlyData sortStage groupStage
  by_cases hex : ∃ m ∈ matchStage moves, month m.date = k
  · rw [if_pos hex] at hval ⊢
    apply monthDataMap_foldl_some
    · intro g hg hk
      rw [List.mem_insertionSort] at hg
      have := groupVal_of_mem _ g hn hg
      rw [hk, hval] at this
      exact (Option.some.inj this).symm
    · unfold groupVal at hval
      rcases Option.map_eq_some'.1 hval with ⟨g, hfind, _⟩
      refine ⟨g, ?_, ?_⟩
      · rw [List.mem_insertionSort]
        exact List.mem_of_find?_eq_some hfind
      · simpa using List.find?_some hfind
  · rw [if_neg hex] at hval ⊢
    rw [monthDataMap_foldl_none]
    intro g hg
    rw [List.mem_insertionSort] at hg
    exact groupVal_none_of_not_mem _ k hval g hg

theorem inboundSum_matchStage (month : Nat → Nat) (moves : List StockMove) (k : Nat) :
    inboundSum month (matchStage moves) k = monthInbound month moves k := by
  unfold inboundSum matchStage monthInbound inReportingYear
  induction moves with
  | nil => rfl
  | cons m rest ih =>
    by_cases hy : year2025Start ≤ m.date ∧ m.date ≤ year2025End <;>
      by_cases hm : month m.date = k <;>
      by_cases hq : 0 < m.quantity <;>
      simp [List.filter_cons, hy, hm, hq, inboundOf] <;> simpa using ih

theorem outboundSum_matchStage (month : Nat → Nat) (moves : List StockMove) (k : Nat) :
    outboundSum month (matchStage moves) k = monthOutbound month moves k := by
  unfold outboundSum matchStage monthOutbound inReportingYear
  induction moves with
  | nil => rfl
  | cons m rest ih =>
    by_cases hy : year2025Start ≤ m.date ∧ m.date ≤ year2025End <;>
      by_cases hm : month m.date = k <;>
      by_cases hq : m.quantity < 0 <;>
      simp [List.filter_cons, hy, hm, hq, outboundOf] <;> simpa using ih

theorem sums_zero_of_no_doc (month : Nat → Nat) (docs : List StockMove) (k : Nat)
    (h : ¬ ∃ m ∈ docs, month m.date = k) :
    inboundSum month docs k = 0 ∧ outboundSum month docs k = 0 := by
  have hf : docs.filter (fun m => decide (month m.date = k)) = [] := by
    rw [List.filter_eq_nil_iff]
    intro m hm
    simp only [decide_eq_true_eq]
    exact fun hc => h ⟨m, hm, hc⟩
  unfold inboundSum outboundSum
  rw [hf]
  exact ⟨rfl, rfl⟩

/-! ### C11: the chart data of the dashboard -/

/-- C11: for every StockMove log (and whatever the operator `$month` computes),
`chartData` has exactly 12 entries named Jan to Dec in calendar order; the
entry of month number `k` has `in` equal to the sum of the quantities of all
moves dated in month `k` of the reporting year 2025 whose quantity is positive
and `out` equal to the sum of the absolute values of all such moves whose
quantity is negative; a month with no move in the reporting year reports 0
and 0; and the moves dated outside the reporting year contribute to no month:
the chart of the log is the chart of its moves of the reporting year. -/
theorem chartData_monthly_sums (month : Nat → Nat) (moves : List StockMove) :
    chartData month moves =
        monthNames.enum.map (fun x =>
          { name := x.2, in_ := monthInbound month moves (x.1 + 1),
            out := monthOutbound month moves (x.1 + 1) }) ∧
      (chartData month moves).length = 12 ∧
      (chartData month moves).map (fun e => e.name) = monthNames ∧
      (∀ k, (∀ m ∈ moves, inReportingYear m = true → month m.date ≠ k) →
        monthInbound month moves k = 0 ∧ monthOutbound month moves k = 0) ∧
      chartData month (moves.filter (fun m => inReportingYear m)) = chartData month moves := by
  have hmain : ∀ mv : List StockMove, chartData month mv =
      monthNames.enum.map (fun x =>
        ({ name := x.2, in_ := monthInbound month mv (x.1 + 1),
           out := monthOutbound month mv (x.1 + 1) } : ChartEntry)) := by
    intro mv
    unfold chartData
    apply List.map_congr_left
    intro x _
    simp only
    rw [monthDataMap_monthlyData]
    by_cases hex : ∃ m ∈ matchStage mv, month m.date = x.1 + 1
    · rw [if_pos hex, Option.getD_some, inboundSum_matchStage, outboundSum_matchStage]
    · rw [if_neg hex, Option.getD_none, ← inboundSum_matchStage, ← outboundSum_matchStage,
        (sums_zero_of_no_doc month _ _ hex).1, (sums_zero_of_no_doc month _ _ hex).2]
  have hzero : ∀ k, (∀ m ∈ moves, inReportingYear m = true → month m.date ≠ k) →
      monthInbound month moves k = 0 ∧ monthOutbound month moves k = 0 := by
    intro k hk
    rw [← inboundSum_matchStage, ← outboundSum_matchStage]
    apply sums_zero_of_no_doc
    rintro ⟨m, hm, hmk⟩
    unfold matchStage at hm
    rw [List.mem_filter] at hm
    exact hk m hm.1 hm.2 hmk
  refine ⟨hmain moves, ?_, ?_, hzero, ?_⟩
  · rw [hmain]; rfl
  · rw [hmain]; rfl
  · have hm : matchStage (moves.filter (fun m => inReportingYear m)) = matchStage moves := by
      unfold matchStage inReportingYear
      rw [List.filter_filter]
      congr 1
      funext m
      simp
    unfold chartData monthlyData
    rw [hm]

/-- C11 at the sample log: 50 in and 20 out in January, 3 out in March, the
move of December 2024 nowhere. -/
theorem chartData_monthly_sums_witness :
    chartData month2025 sampleMoves =
        [{ name := "Jan", in_ := 50, out := 20 }, { name := "Feb", in_ := 0, out := 0 },
         { name := "Mar", in_ := 0, out := 3 }, { name := "Apr", in_ := 0, out := 0 },
         { name := "May", in_ := 0, out := 0 }, { name := "Jun", in_ := 0, out := 0 },
         { name := "Jul", in_ := 0, out := 0 }, { name := "Aug", in_ := 0, out := 0 },
         { name := "Sep", in_ := 0, out := 0 }, { name := "Oct", in_ := 0, out := 0 },
         { name := "Nov", in_ := 0, out := 0 }, { name := "Dec", in_ := 0, out := 0 }] ∧
      (chartData month2025 sampleMoves).length = 12 :=
  ⟨by decide, (chartData_monthly_sums month2025 sampleMoves).2.1⟩

/-! ### C12: generated references -/

/-- C12 on the code: after two receipts were created and the first was
deleted, one receipt with reference WH/IN/00002 is stored and the count is 1,
so the reference generated for the next receipt is WH/IN/00002 again; the
unique index refuses the save and the route answers 400 with the database
unchanged. The delivery routes collide in the same way on WH/OUT/00002. -/
theorem reference_collides_after_delete :
    sampleAfterDelete.receipts.map (fun r => r.reference) = ["WH/IN/00002"] ∧
      receiptReference sampleAfterDelete.receipts.length = "WH/IN/00002" ∧
      createReceipt sampleAfterDelete 5 sampleReceiptBody
        = (sampleAfterDelete, { status := 400, error := some "E11000 duplicate key error" }) ∧
      sampleAfterDelete.deliveries.map (fun d => d.reference) = ["WH/OUT/00002"] ∧
      deliveryReference sampleAfterDelete.deliveries.length = "WH/OUT/00002" ∧
      createDelivery sampleAfterDelete 6 sampleDeliveryBody
        = (sampleAfterDelete, { status := 400, error := some "E11000 duplicate key error" }) := by
  decide

end StockMaster
